import Mathlib

/-!
Verification of the cluster-membership / gossip core (`gms::gossiper`,
src/unnamed/part_000) against its natural-language specification.

The C++ code is shallowly embedded: the gossiper's per-node state becomes an
explicit record (`GState`), every operation becomes a pure function from state
to state that additionally returns the ordered list of its observable effects
(`Ev`): writes to `endpoint_state_map`, cross-core replication fan-outs,
subscriber notifications and echo sends.  Timestamps are integers
(milliseconds for the monotonic clock, seconds for generations).  Helper
classes whose headers are not part of the sources under verification
(`endpoint_state`, `heart_beat_state`, `versioned_value`, `gossip_digest`)
are modelled from the specification's data-model section; each such
definition carries a note.
-/

namespace Gossip

/-- Opaque network endpoint identifier (`gms::inet_address`): values are only
compared for equality. -/
abbrev Addr := Nat

/-- Clock values: milliseconds for `clk::time_point`, seconds for generations. -/
abbrev Time := Int

/-- The closed enum of application-state keys (`gms::application_state`)
used by the gossip code. -/
inductive AppState where
  | STATUS
  | LOAD
  | VIEW_BACKLOG
  | CACHE_HITRATES
  | TOKENS
  | HOST_ID
  | RPC_READY
  | SUPPORTED_FEATURES
  | INTERNAL_IP
  | SNITCH_NAME
  | NET_VERSION
  | REMOVAL_COORDINATOR
deriving DecidableEq, Repr

/-- Modelled from the spec: `gms::versioned_value` is a
`(value : string, version : int32)` pair (spec §3, application-state map);
its header is not among the sources. -/
structure VersionedValue where
  value : String
  version : Int
deriving DecidableEq, Repr

/-- Modelled from the spec: `gms::heart_beat_state` holds the generation
(seconds at process start) and the in-generation heartbeat version (spec §3);
its header is not among the sources. -/
structure HeartBeatState where
  generation : Int
  version : Int
deriving DecidableEq, Repr

/-- Modelled from the spec: `gms::endpoint_state` is
`{ heartbeat, apps, alive : bool, update_ts }` (spec §3).  The application
state map is an association list in iteration order. -/
structure EndpointState where
  hb : HeartBeatState
  apps : List (AppState × VersionedValue)
  alive : Bool
  updateTs : Time
deriving DecidableEq, Repr

/-- Generic association-list lookup (`std::map::find`). -/
def assocLookup {α β : Type} [BEq α] (l : List (α × β)) (k : α) : Option β :=
  (l.find? (fun kv => kv.1 == k)).map (fun kv => kv.2)

/-- Generic association-list insert-or-assign (`map[k] = v`): replaces the
value in place when the key is present, appends otherwise. -/
def assocInsert {α β : Type} [BEq α] (l : List (α × β)) (k : α) (v : β) : List (α × β) :=
  match l with
  | [] => [(k, v)]
  | (k', v') :: rest =>
    if k' == k then (k', v) :: rest else (k', v') :: assocInsert rest k v

/-- Generic association-list erase (`map::erase`). -/
def assocErase {α β : Type} [BEq α] (l : List (α × β)) (k : α) : List (α × β) :=
  l.filter (fun kv => kv.1 != k)

/-- In-place modification of an existing entry, as through a C++ reference;
a no-op when the key is absent. -/
def assocModify {α β : Type} [BEq α] (l : List (α × β)) (k : α) (f : β → β) : List (α × β) :=
  l.map (fun kv => if kv.1 == k then (kv.1, f kv.2) else kv)

/-- `endpoint_state::get_application_state_ptr`. -/
def EndpointState.getApp (es : EndpointState) (k : AppState) : Option VersionedValue :=
  assocLookup es.apps k

/-- `endpoint_state::add_application_state(key, value)` (modelled from the
spec's data model: overwrite-or-insert of one key). -/
def EndpointState.addApp (es : EndpointState) (k : AppState) (v : VersionedValue) : EndpointState :=
  { es with apps := assocInsert es.apps k v }

/-- `endpoint_state(heart_beat_state)` constructor: fresh state with the given
heartbeat and no application states (modelled from the spec). -/
def freshEndpointState (hb : HeartBeatState) : EndpointState :=
  { hb := hb, apps := [], alive := true, updateTs := 0 }

/-- The coordinator's `endpoint_state_map`. -/
abbrev EpMap := List (Addr × EndpointState)

/-- `gossiper::get_endpoint_state_for_endpoint_ptr` (src/unnamed/part_000:1379). -/
def lookupEp (m : EpMap) (a : Addr) : Option EndpointState :=
  assocLookup m a

/-- `gossiper::get_max_endpoint_state_version` (src/unnamed/part_000:1139):
the maximum of the heartbeat version and all application-state versions. -/
def maxEndpointStateVersion (es : EndpointState) : Int :=
  es.apps.foldl (fun mv kv => max mv kv.2.version) es.hb.version

/-- `gossiper::get_state_for_version_bigger_than` (src/unnamed/part_000:1453):
the partial endpoint state carrying the heartbeat (when newer than `version`)
and exactly the application states with version above `version`; `none` when
nothing qualifies or the endpoint is unknown. -/
def getStateForVersionBiggerThan (m : EpMap) (forEndpoint : Addr) (version : Int) :
    Option EndpointState :=
  match lookupEp m forEndpoint with
  | none => none
  | some eps =>
    let start : Option EndpointState :=
      if version < eps.hb.version then some (freshEndpointState eps.hb) else none
    eps.apps.foldl
      (fun reqd kv =>
        if version < kv.2.version then
          some ((reqd.getD (freshEndpointState eps.hb)).addApp kv.1 kv.2)
        else reqd)
      start

/-- The wire digest `(endpoint, generation, max_version)` (spec §6). -/
structure GossipDigest where
  endpoint : Addr
  generation : Int
  maxVersion : Int
deriving DecidableEq, Repr

/-- First phase of `gossiper::do_sort` (src/unnamed/part_000:189): the
`std::map` from endpoint to digest; `emplace` keeps the first digest seen for
a given endpoint. -/
def epToDigestMap (l : List GossipDigest) : List (Addr × GossipDigest) :=
  l.foldl
    (fun acc d =>
      if (assocLookup acc d.endpoint).isSome then acc else acc ++ [(d.endpoint, d)])
    []

/-- Modelled from the spec: the digest ordering used by `std::sort` inside
`do_sort` — "Sort incoming digests by |local_max_version − remote_max_version|
descending" (spec §4.3); the header defining the digest comparison is not
among the sources, so the difference digests are ordered by their stored
difference value. -/
def digestLe (a b : GossipDigest) : Bool :=
  a.maxVersion ≤ b.maxVersion

def insertSortedDigest (d : GossipDigest) : List GossipDigest → List GossipDigest
  | [] => [d]
  | e :: rest => if digestLe d e then d :: e :: rest else e :: insertSortedDigest d rest

/-- Sorting of the difference digests in ascending order of `digestLe`. -/
def sortDigests : List GossipDigest → List GossipDigest
  | [] => []
  | d :: rest => insertSortedDigest d (sortDigests rest)

/-- The local maximum endpoint-state version for a digest's endpoint,
zero when the endpoint is unknown locally (src/unnamed/part_000:203-204). -/
def localMaxVersionFor (m : EpMap) (ep : Addr) : Int :=
  match lookupEp m ep with
  | some epState => maxEndpointStateVersion epState
  | none => 0

/-- `gossiper::do_sort` (src/unnamed/part_000:189): build difference digests
whose `max_version` is `|local_version − digest.max_version|`, sort them, then
report the original digests in descending difference order via the
endpoint-to-digest map. -/
def doSort (m : EpMap) (gDigestList : List GossipDigest) : List GossipDigest :=
  let epMap := epToDigestMap gDigestList
  let diffDigests := gDigestList.map (fun d =>
    GossipDigest.mk d.endpoint d.generation |localMaxVersionFor m d.endpoint - d.maxVersion|)
  let sorted := sortDigests diffDigests
  sorted.reverse.map (fun d => (assocLookup epMap d.endpoint).getD (GossipDigest.mk d.endpoint 0 0))

/-- The sort key the specification ascribes to `do_sort`:
`|local_max_version − remote_max_version|`. -/
def divergence (m : EpMap) (d : GossipDigest) : Int :=
  |localMaxVersionFor m d.endpoint - d.maxVersion|

/-- `should_count_as_msg_processing` (src/unnamed/part_000:301): true exactly
when some per-peer state map in the message holds an application-state key
other than LOAD, VIEW_BACKLOG, CACHE_HITRATES. -/
def shouldCountAsMsgProcessing (map : List (Addr × EndpointState)) : Bool :=
  map.any (fun x =>
    x.2.apps.any (fun entry =>
      !(entry.1 == AppState.LOAD || entry.1 == AppState.VIEW_BACKLOG ||
        entry.1 == AppState.CACHE_HITRATES)))

/-- `versioned_value::STATUS_UNKNOWN`, the status reported when no STATUS
application state is present or its value is malformed. -/
def STATUS_UNKNOWN : String := "UNKNOWN"

/-- Modelled from the spec: the STATUS tokens of the dead states
{LEFT, REMOVED_TOKEN, REMOVING_TOKEN} and of SHUTDOWN (spec §3 invariant 7,
§4.3); the `versioned_value` status constants live in a header that is not
among the sources, so the spec's names are used as the concrete strings. -/
def STATUS_LEFT : String := "LEFT"

def REMOVED_TOKEN : String := "REMOVED_TOKEN"

def REMOVING_TOKEN : String := "REMOVING_TOKEN"

def SHUTDOWN : String := "SHUTDOWN"

/-- Modelled from the spec: `gossiper::DEAD_STATES` =
{LEFT, REMOVED_TOKEN, REMOVING_TOKEN} (spec §3 invariant 7). -/
def DEAD_STATES : List String := [REMOVING_TOKEN, REMOVED_TOKEN, STATUS_LEFT]

/-- `do_get_gossip_status` (src/unnamed/part_000:2334): UNKNOWN when the
STATUS application state is missing, its value empty, or the value starts
with a comma; otherwise the prefix of the value up to the first comma. -/
def doGetGossipStatus : Option VersionedValue → String
  | none => STATUS_UNKNOWN
  | some appState =>
    let cs := appState.value.toList
    if cs.isEmpty then STATUS_UNKNOWN
    else if cs.head? = some ',' then STATUS_UNKNOWN
    else String.mk (cs.takeWhile (fun c => c != ','))

/-- `gossiper::get_gossip_status(const endpoint_state&)` (src/unnamed/part_000:2349). -/
def getGossipStatus (es : EndpointState) : String :=
  doGetGossipStatus (es.getApp AppState.STATUS)

/-- `gossiper::is_dead_state` (src/unnamed/part_000:1676). -/
def isDeadState (es : EndpointState) : Bool :=
  DEAD_STATES.contains (getGossipStatus es)

/-- Modelled from the spec: `MAX_GENERATION_DIFFERENCE` is one year of
seconds (spec §6 Constants); the constexpr initializer is in the header,
not among the sources. -/
def MAX_GENERATION_DIFFERENCE : Int := 365 * 24 * 3600

/-- `INT32_MAX`, the version forced by `force_highest_possible_version_unsafe`. -/
def INT32_MAX : Int := 2147483647

/-- Modelled from the spec: `A_VERY_LONG_TIME` is about three days (spec §6),
here in milliseconds. -/
def A_VERY_LONG_TIME_MS : Int := 72 * 3600 * 1000

/-- Modelled from the spec: `versioned_value::shutdown(true)` — a STATUS
value whose token is SHUTDOWN, stamped with the given version drawn from the
shared version counter; the factory lives in a header not among the sources. -/
def shutdownValue (ver : Int) : VersionedValue :=
  { value := SHUTDOWN ++ ",true", version := ver }

/-- The ambient inputs of the gossiper that are external to its own state:
its own address, the clocks, shadow-round mode, the token-metadata membership
view and the configured ring delay. -/
structure Env where
  broadcast : Addr
  now : Time
  genNow : Int
  shadow : Bool
  isMember : Addr → Bool
  ringDelayMs : Int

/-- `gossiper::quarantine_delay` (src/unnamed/part_000:113):
`2 * max(30000, ring_delay_ms)` milliseconds. -/
def quarantineDelayMs (e : Env) : Int :=
  2 * max 30000 e.ringDelayMs

/-- `fat_client_timeout = quarantine_delay() / 2` (src/unnamed/part_000:156). -/
def fatClientTimeoutMs (e : Env) : Int :=
  quarantineDelayMs e / 2

/-- The kinds of subscriber notification (`i_endpoint_state_change_subscriber`). -/
inductive NotifyKind where
  | onJoin
  | onAlive
  | onDead
  | onChange
  | beforeChange
  | onRestart
  | onRemove
deriving DecidableEq, Repr

/-- Observable effects of a gossiper operation, in program order:
`mutateState ep` is a write changing the generation/heartbeat/application
content of `endpoint_state_map[ep]` (insert, whole-entry assignment,
heartbeat store, application-state store, or erase); `touch ep` is a write
restricted to the alive bit or the update timestamp; `fanout ep` is the
completion of a `replicate`/`invoke_on_all` fan-out carrying `ep`'s entry to
every other core; `notify k ep` is a subscriber callback; `echo ep` is a
gossip-echo send. -/
inductive Ev where
  | mutateState (ep : Addr)
  | touch (ep : Addr)
  | fanout (ep : Addr)
  | notify (k : NotifyKind) (ep : Addr)
  | echo (ep : Addr)
deriving DecidableEq, Repr

/-- The gossiper's mutable per-node state (the authoritative tables of
spec §3 plus the shared version counter used by the value factories). -/
structure GState where
  epStateMap : EpMap
  liveEndpoints : List Addr
  liveEndpointsVersion : Nat
  unreachableEndpoints : List (Addr × Time)
  justRemovedEndpoints : List (Addr × Time)
  expireTimeEndpointMap : List (Addr × Time)
  pendingMarkAlive : List Addr
  endpointsToTalkWith : List (List Addr)
  seeds : List Addr
  synHandlers : List Addr
  ackHandlers : List Addr
  versionGen : Int
deriving DecidableEq, Repr

/-- `gossiper::quarantine_endpoint` (src/unnamed/part_000:1159-1165). -/
def quarantineEndpoint (s : GState) (endpoint : Addr) (quarantineStart : Time) : GState :=
  { s with justRemovedEndpoints := assocInsert s.justRemovedEndpoints endpoint quarantineStart }

/-- `gossiper::mark_dead` (src/unnamed/part_000:1608): clear the alive bit,
drop the endpoint from `live_endpoints` (bumping the live version), record it
unreachable and fire `on_dead`. -/
def markDead (e : Env) (s : GState) (addr : Addr) : GState × List Ev :=
  let m1 := assocModify s.epStateMap addr (fun st => { st with alive := false })
  let s1 := { s with epStateMap := m1 }
  let s2 := { s1 with
    liveEndpoints := s1.liveEndpoints.filter (fun a => a != addr),
    liveEndpointsVersion := s1.liveEndpointsVersion + 1,
    unreachableEndpoints := assocInsert s1.unreachableEndpoints addr e.now }
  (s2, [Ev.touch addr, Ev.notify NotifyKind.onDead addr])

/-- `gossiper::real_mark_alive` (src/unnamed/part_000:1565): skip entirely
when the STATUS is SHUTDOWN; otherwise set the alive bit, refresh the
timestamp, clear unreachable/expire entries, and, when the endpoint was not
already live, append it to `live_endpoints` and the talk queue and fire
`on_alive`. -/
def realMarkAlive (e : Env) (s : GState) (addr : Addr) : GState × List Ev :=
  match lookupEp s.epStateMap addr with
  | none => (s, [])
  | some _ =>
    if getGossipStatus ((lookupEp s.epStateMap addr).getD (freshEndpointState ⟨0, 0⟩)) = SHUTDOWN then
      (s, [])
    else
      let m1 := assocModify s.epStateMap addr (fun st => { st with alive := true, updateTs := e.now })
      let s1 := { s with epStateMap := m1 }
      let s2 := { s1 with
        unreachableEndpoints := assocErase s1.unreachableEndpoints addr,
        expireTimeEndpointMap := assocErase s1.expireTimeEndpointMap addr }
      if s2.liveEndpoints.contains addr then (s2, [Ev.touch addr, Ev.touch addr])
      else
        let s3 := { s2 with
          liveEndpoints := s2.liveEndpoints ++ [addr],
          liveEndpointsVersion := s2.liveEndpointsVersion + 1,
          endpointsToTalkWith :=
            match s2.endpointsToTalkWith with
            | [] => [[addr]]
            | chunk :: rest => (chunk ++ [addr]) :: rest }
        (s3, [Ev.touch addr, Ev.touch addr, Ev.notify NotifyKind.onAlive addr])

/-- `gossiper::mark_alive` (src/unnamed/part_000:1524): first phase of the
mark-alive handshake — a no-op when the endpoint is already pending;
otherwise register it pending, clear its alive bit and send the echo (the
reply continuation is `onEchoReply`).  Reading the broadcast entry's
generation uses `operator[]`, which default-inserts a fresh entry when the
own address is missing from the map. -/
def markAlive (e : Env) (s : GState) (addr : Addr) : GState × List Ev :=
  if s.pendingMarkAlive.contains addr then (s, [])
  else
    let s1 := { s with pendingMarkAlive := s.pendingMarkAlive ++ [addr] }
    let m1 := assocModify s1.epStateMap addr (fun st => { st with alive := false })
    let s2 := { s1 with epStateMap := m1 }
    if (lookupEp s2.epStateMap e.broadcast).isSome then
      (s2, [Ev.touch addr, Ev.echo addr])
    else
      ({ s2 with epStateMap := assocInsert s2.epStateMap e.broadcast (freshEndpointState ⟨0, 0⟩) },
       [Ev.touch addr, Ev.mutateState e.broadcast, Ev.echo addr])

/-- The continuation of `mark_alive`'s background echo
(src/unnamed/part_000:1548-1561): on a reply, run `real_mark_alive` if the
endpoint is still present, then clear the pending flag. -/
def onEchoReply (e : Env) (s : GState) (addr : Addr) : GState × List Ev :=
  let step : GState × List Ev :=
    match lookupEp s.epStateMap addr with
    | none => (s, [])
    | some _ => realMarkAlive e s addr
  ({ step.1 with pendingMarkAlive := step.1.pendingMarkAlive.filter (fun a => a != addr) },
   step.2)

/-- One iteration of the first loop of `apply_new_states`
(src/unnamed/part_000:1730-1746): a defensive generation check (throwing,
which ends the loop), then overwrite of the key when the remote version is
newer.  The accumulator carries the state, the `changed` keys, the emitted
events and the exception flag. -/
def applyNewStatesStep (addr : Addr) (remoteGen : Int)
    (acc : GState × List AppState × List Ev × Bool)
    (kv : AppState × VersionedValue) : GState × List AppState × List Ev × Bool :=
  let (st, changed, evs, exc) := acc
  if exc then acc
  else
    let localGen := match lookupEp st.epStateMap addr with
                    | some les => les.hb.generation
                    | none => 0
    if remoteGen ≠ localGen then (st, changed, evs, true)
    else
      let localVal := (lookupEp st.epStateMap addr).bind (fun les => les.getApp kv.1)
      let newer := match localVal with
                   | none => true
                   | some lv => decide (lv.version < kv.2.version)
      if newer then
        let m1 := assocModify st.epStateMap addr (fun les => les.addApp kv.1 kv.2)
        ({ st with epStateMap := m1 }, changed ++ [kv.1], evs ++ [Ev.mutateState addr], exc)
      else acc

/-- `gossiper::apply_new_states` (src/unnamed/part_000:1713): install the
remote heartbeat (refreshing the timestamp), apply every newer remote
application state collecting `changed`, replicate before any listener runs,
then fire `on_change` per changed key. -/
def applyNewStates (e : Env) (s : GState) (addr : Addr) (remote : EndpointState) :
    GState × List Ev :=
  let m1 := assocModify s.epStateMap addr (fun st => { st with hb := remote.hb, updateTs := e.now })
  let s1 := { s with epStateMap := m1 }
  let folded := remote.apps.foldl (applyNewStatesStep addr remote.hb.generation)
    (s1, ([] : List AppState), ([] : List Ev), false)
  let s2 := folded.1
  let changed := folded.2.1
  let loopEvs := folded.2.2.1
  (s2, [Ev.mutateState addr] ++ loopEvs ++ [Ev.fanout addr]
       ++ changed.map (fun _ => Ev.notify NotifyKind.onChange addr))

mutual

/-- `gossiper::convict` (src/unnamed/part_000:1119): nothing unless the
endpoint is present and alive; shutdown status leads to `mark_as_shutdown`,
otherwise `mark_dead`.  The mutual recursion with `mark_as_shutdown` is
bounded because `mark_dead` clears the alive bit; it is embedded with a fuel
parameter large enough for every actual call depth. -/
def convictFuel : Nat → Env → GState → Addr → GState × List Ev
  | 0, _, s, _ => (s, [])
  | Nat.succ n, e, s, endpoint =>
    match lookupEp s.epStateMap endpoint with
    | none => (s, [])
    | some st =>
      if !st.alive then (s, [])
      else if getGossipStatus st = SHUTDOWN then markAsShutdownFuel n e s endpoint
      else markDead e s endpoint

/-- `gossiper::mark_as_shutdown` (src/unnamed/part_000:2315): when the
endpoint is present, add STATUS=shutdown (stamped with the next shared
version), force the heartbeat version to INT32_MAX, replicate, mark dead and
convict. -/
def markAsShutdownFuel : Nat → Env → GState → Addr → GState × List Ev
  | 0, _, s, _ => (s, [])
  | Nat.succ n, e, s, endpoint =>
    match lookupEp s.epStateMap endpoint with
    | none => (s, [])
    | some _ =>
      let newVer := s.versionGen + 1
      let m1 := assocModify s.epStateMap endpoint (fun st =>
        let st1 := st.addApp AppState.STATUS (shutdownValue newVer)
        { st1 with hb := { st1.hb with version := INT32_MAX } })
      let s1 := { s with epStateMap := m1, versionGen := newVer }
      let ev1 := [Ev.mutateState endpoint, Ev.mutateState endpoint, Ev.fanout endpoint]
      let r2 := markDead e s1 endpoint
      let r3 := convictFuel n e r2.1 endpoint
      (r3.1, ev1 ++ r2.2 ++ r3.2)

end

/-- `gossiper::convict` at the fuel sufficient for its real call depth. -/
def convict (e : Env) (s : GState) (endpoint : Addr) : GState × List Ev :=
  convictFuel 3 e s endpoint

/-- `gossiper::mark_as_shutdown` at the fuel sufficient for its real call depth. -/
def markAsShutdown (e : Env) (s : GState) (endpoint : Addr) : GState × List Ev :=
  markAsShutdownFuel 3 e s endpoint

/-- `gossiper::handle_major_state_change` (src/unnamed/part_000:1622):
remember the old entry, install the new one, replicate; outside shadow round
fire `on_restart` (when replacing), run the mark-alive handshake or
`mark_dead` depending on `is_dead_state`, fire `on_join`, and finally
`mark_as_shutdown` when the status is SHUTDOWN. -/
def handleMajorStateChange (e : Env) (s : GState) (ep : Addr) (eps : EndpointState) :
    GState × List Ev :=
  let epsOld := lookupEp s.epStateMap ep
  let s1 := { s with epStateMap := assocInsert s.epStateMap ep eps }
  let ev1 := [Ev.mutateState ep, Ev.fanout ep]
  if e.shadow then (s1, ev1)
  else
    let ev2 := match epsOld with
               | some _ => [Ev.notify NotifyKind.onRestart ep]
               | none => []
    let epState := (lookupEp s1.epStateMap ep).getD eps
    let r3 := if !(isDeadState epState) then markAlive e s1 ep else markDead e s1 ep
    let ev4 := if (lookupEp r3.1.epStateMap ep).isSome then [Ev.notify NotifyKind.onJoin ep] else []
    let curStatus := doGetGossipStatus ((lookupEp r3.1.epStateMap ep).bind
      (fun st => st.getApp AppState.STATUS))
    let r5 := if curStatus = SHUTDOWN then markAsShutdownFuel 3 e r3.1 ep else (r3.1, [])
    (r5.1, ev1 ++ ev2 ++ r3.2 ++ ev4 ++ r5.2)

/-- One iteration of the merge loop of the no-listener branch of
`do_apply_state_locally` (src/unnamed/part_000:645-656). -/
def mergeNoListenerStep (node : Addr) (acc : GState × List Ev)
    (kv : AppState × VersionedValue) : GState × List Ev :=
  let (st, evs) := acc
  let localVal := (lookupEp st.epStateMap node).bind (fun les => les.getApp kv.1)
  let newer := match localVal with
               | none => true
               | some lv => decide (lv.version < kv.2.version)
  if newer then
    let m1 := assocModify st.epStateMap node (fun les => les.addApp kv.1 kv.2)
    ({ st with epStateMap := m1 }, evs ++ [Ev.mutateState node])
  else acc

/-- `gossiper::do_apply_state_locally` (src/unnamed/part_000:607): the
per-endpoint application of one incoming state, in listener-notification
mode (the `apply_state_locally` path) or without notifications (the
shadow-round path). -/
def doApplyStateLocally (e : Env) (s : GState) (node : Addr)
    (remoteState : EndpointState) (listenerNotification : Bool) : GState × List Ev :=
  match lookupEp s.epStateMap node with
  | some localState =>
    let localGeneration := localState.hb.generation
    let remoteGeneration := remoteState.hb.generation
    if e.genNow + MAX_GENERATION_DIFFERENCE < remoteGeneration then (s, [])
    else if localGeneration < remoteGeneration then
      if listenerNotification then handleMajorStateChange e s node remoteState
      else ({ s with epStateMap := assocInsert s.epStateMap node remoteState },
            [Ev.mutateState node])
    else if remoteGeneration = localGeneration then
      if listenerNotification then
        let localMaxVersion := maxEndpointStateVersion localState
        let remoteMaxVersion := maxEndpointStateVersion remoteState
        let r1 := if localMaxVersion < remoteMaxVersion
                  then applyNewStates e s node remoteState
                  else (s, [])
        let cur := (lookupEp r1.1.epStateMap node).getD localState
        if !cur.alive && !(isDeadState cur) then
          let r2 := markAlive e r1.1 node
          (r2.1, r1.2 ++ r2.2)
        else r1
      else
        remoteState.apps.foldl (mergeNoListenerStep node) (s, [])
    else (s, [])
  | none =>
    if listenerNotification then handleMajorStateChange e s node remoteState
    else ({ s with epStateMap := assocInsert s.epStateMap node remoteState },
          [Ev.mutateState node])

/-- `gossiper::apply_state_locally` (src/unnamed/part_000:679).  The random
shuffle and seeds-first partition are abstracted by the `order` parameter:
the sequence of endpoints actually processed (a permutation of the incoming
map's keys).  Self (outside shadow round) and quarantined endpoints are
skipped. -/
def applyStateLocally (e : Env) (s : GState) (order : List Addr) (map : EpMap) :
    GState × List Ev :=
  order.foldl
    (fun (acc : GState × List Ev) ep =>
      if ep == e.broadcast && !e.shadow then acc
      else if (assocLookup acc.1.justRemovedEndpoints ep).isSome then acc
      else
        let r := doApplyStateLocally e acc.1 ep
          ((lookupEp map ep).getD (freshEndpointState ⟨0, 0⟩)) true
        (r.1, acc.2 ++ r.2))
    (s, [])

/-- `gossiper::apply_state_locally_without_listener_notification`
(src/unnamed/part_000:672): apply every entry of the incoming map through the
no-listener branch. -/
def applyStateLocallyWithoutListener (e : Env) (s : GState) (map : EpMap) :
    GState × List Ev :=
  map.foldl
    (fun (acc : GState × List Ev) kv =>
      let r := doApplyStateLocally e acc.1 kv.1 kv.2 false
      (r.1, acc.2 ++ r.2))
    (s, [])

/-- `gossiper::remove_endpoint` (src/unnamed/part_000:720): fire `on_remove`
in the background, rebuild the seed list without the endpoint, drop it from
the live list (bumping the live version), from the unreachable set and from
both per-source handler tables, then quarantine it. -/
def removeEndpoint (e : Env) (s : GState) (endpoint : Addr) : GState × List Ev :=
  let s1 := if s.seeds.contains endpoint
            then { s with seeds := s.seeds.filter (fun a => a != endpoint) }
            else s
  let s2 := { s1 with
    liveEndpoints := s1.liveEndpoints.filter (fun a => a != endpoint),
    liveEndpointsVersion := s1.liveEndpointsVersion + 1,
    unreachableEndpoints := assocErase s1.unreachableEndpoints endpoint,
    synHandlers := s1.synHandlers.filter (fun a => a != endpoint),
    ackHandlers := s1.ackHandlers.filter (fun a => a != endpoint) }
  (quarantineEndpoint s2 endpoint e.now, [Ev.notify NotifyKind.onRemove endpoint])

/-- `gossiper::evict_from_membership` (src/unnamed/part_000:1147): clear the
unreachable entry, erase the endpoint from the state map on every core, clear
its expire time and quarantine it. -/
def evictFromMembership (e : Env) (s : GState) (endpoint : Addr) : GState × List Ev :=
  let s1 := { s with unreachableEndpoints := assocErase s.unreachableEndpoints endpoint }
  let s2 := { s1 with epStateMap := assocErase s1.epStateMap endpoint }
  let s3 := { s2 with expireTimeEndpointMap := assocErase s2.expireTimeEndpointMap endpoint }
  (quarantineEndpoint s3 endpoint e.now, [Ev.mutateState endpoint, Ev.fanout endpoint])

/-- `gossiper::is_gossip_only_member` (src/unnamed/part_000:1360). -/
def isGossipOnlyMember (e : Env) (s : GState) (endpoint : Addr) : Bool :=
  match lookupEp s.epStateMap endpoint with
  | none => false
  | some es => !(isDeadState es) && !(e.isMember endpoint)

/-- `gossiper::get_expire_time_for_endpoint` (src/unnamed/part_000:1368) with
`compute_expire_time` (src/unnamed/part_000:2243): `now + A_VERY_LONG_TIME`
by default. -/
def getExpireTimeForEndpoint (e : Env) (s : GState) (endpoint : Addr) : Time :=
  (assocLookup s.expireTimeEndpointMap endpoint).getD (e.now + A_VERY_LONG_TIME_MS)

/-- The per-endpoint body of the first loop of `gossiper::do_status_check`
(src/unnamed/part_000:752-778): fat-client removal and dead-state eviction.
`kv` is the map entry captured at iteration time. -/
def doStatusCheckStep (e : Env) (acc : GState × List Ev) (kv : Addr × EndpointState) :
    GState × List Ev :=
  let (st, evs) := acc
  let endpoint := kv.1
  let epState := kv.2
  if endpoint == e.broadcast then acc
  else
    let r1 :=
      if isGossipOnlyMember e st endpoint
          && !(assocLookup st.justRemovedEndpoints endpoint).isSome
          && (fatClientTimeoutMs e < e.now - epState.updateTs) then
        let rA := removeEndpoint e st endpoint
        let rB := evictFromMembership e rA.1 endpoint
        (rB.1, rA.2 ++ rB.2)
      else (st, ([] : List Ev))
    let expireTime := getExpireTimeForEndpoint e r1.1 endpoint
    if !epState.alive && expireTime < e.now && !(e.isMember endpoint) then
      let rC := evictFromMembership e r1.1 endpoint
      (rC.1, evs ++ r1.2 ++ rC.2)
    else (r1.1, evs ++ r1.2)

/-- `gossiper::do_status_check` (src/unnamed/part_000:746): walk the state
map removing silent fat clients and expired dead endpoints, then sweep
`just_removed_endpoints`, erasing exactly the entries whose quarantine
started more than `quarantine_delay` ago. -/
def doStatusCheck (e : Env) (s : GState) : GState × List Ev :=
  let r1 := s.epStateMap.foldl (doStatusCheckStep e) (s, [])
  let swept := r1.1.justRemovedEndpoints.filter
    (fun kv => !(quarantineDelayMs e < e.now - kv.2))
  ({ r1.1 with justRemovedEndpoints := swept }, r1.2)

/-- `gossiper::add_saved_endpoint` (src/unnamed/part_000:2032); the
token-metadata-derived TOKENS and HOST_ID values are passed as optional
parameters.  The entry is written with generation zero, marked dead,
replicated and recorded unreachable. -/
def addSavedEndpoint (e : Env) (s : GState) (ep : Addr)
    (tokensVal hostIdVal : Option VersionedValue) : GState × List Ev :=
  if ep == e.broadcast then (s, [])
  else
    let base := match lookupEp s.epStateMap ep with
                | some es => { es with hb := (⟨0, 0⟩ : HeartBeatState), updateTs := e.now }
                | none => freshEndpointState ⟨0, 0⟩
    let st1 := match tokensVal with
               | some v => base.addApp AppState.TOKENS v
               | none => base
    let st2 := match hostIdVal with
               | some v => st1.addApp AppState.HOST_ID v
               | none => st1
    let st3 := { st2 with alive := false }
    let s1 := { s with epStateMap := assocInsert s.epStateMap ep st3 }
    let s2 := { s1 with unreachableEndpoints := assocInsert s1.unreachableEndpoints ep e.now }
    (s2, [Ev.mutateState ep, Ev.fanout ep])

/-- `gossiper::add_local_application_state` (src/unnamed/part_000:2090): for
the own address, fire `before_change` per supplied pair, re-stamp each value
with the next shared version (`clone_with_higher_version`, modelled from
spec §5: "rewrites the supplied value's version to the next monotonic
counter") and add it, then per pair replicate and fire `on_change`. -/
def addLocalApplicationState (e : Env) (s : GState)
    (states : List (AppState × VersionedValue)) : GState × List Ev :=
  if states.isEmpty then (s, [])
  else
    match lookupEp s.epStateMap e.broadcast with
    | none => (s, [])
    | some _ =>
      let ev1 := states.map (fun _ => Ev.notify NotifyKind.beforeChange e.broadcast)
      let folded := states.foldl
        (fun (acc : GState × List Ev) kv =>
          let (st, evs) := acc
          let newVer := st.versionGen + 1
          let value := { kv.2 with version := newVer }
          let m1 := assocModify st.epStateMap e.broadcast (fun les => les.addApp kv.1 value)
          ({ st with epStateMap := m1, versionGen := newVer },
           evs ++ [Ev.mutateState e.broadcast]))
        (s, [])
      let ev3 := states.foldl
        (fun (acc : List Ev) _ =>
          acc ++ [Ev.fanout e.broadcast, Ev.notify NotifyKind.onChange e.broadcast]) []
      (folded.1, ev1 ++ folded.2 ++ ev3)

/-- `gossiper::advertise_removing` (src/unnamed/part_000:1222); the
STATUS=removing_nonlocal and REMOVAL_COORDINATOR values are parameters (the
`versioned_value` factories live in a header not among the sources).  The
ring-delay sleep and generation re-check precede the mutation; within this
sequential embedding the state is unchanged across the sleep, so the check
passes.  `force_newer_generation_unsafe` is modelled from spec §4.2: bump to
`max(now_seconds, current + 1)`. -/
def advertiseRemoving (e : Env) (s : GState) (endpoint : Addr)
    (removingVal coordVal : VersionedValue) : GState × List Ev :=
  match lookupEp s.epStateMap endpoint with
  | none => (s, [])
  | some _ =>
    let m1 := assocModify s.epStateMap endpoint (fun st =>
      let st1 := { st with updateTs := e.now }
      let st2 := { st1 with hb := { st1.hb with generation := max e.genNow (st1.hb.generation + 1) } }
      (st2.addApp AppState.STATUS removingVal).addApp AppState.REMOVAL_COORDINATOR coordVal)
    let s1 := { s with epStateMap := m1 }
    (s1, [Ev.touch endpoint, Ev.mutateState endpoint, Ev.mutateState endpoint,
          Ev.mutateState endpoint, Ev.mutateState endpoint, Ev.fanout endpoint])

/-- `gossiper::request_all` (src/unnamed/part_000:1780): append a request
digest `(endpoint, remote_generation, 0)`. -/
def requestAll (gDigest : GossipDigest) (deltaGossipDigestList : List GossipDigest)
    (remoteGeneration : Int) : List GossipDigest :=
  deltaGossipDigestList ++ [GossipDigest.mk gDigest.endpoint remoteGeneration 0]

/-- `gossiper::send_all` (src/unnamed/part_000:1788): add the local state
with versions above `max_remote_version` to the delta map, when any. -/
def sendAll (m : EpMap) (gDigest : GossipDigest) (deltaEpStateMap : EpMap)
    (maxRemoteVersion : Int) : EpMap :=
  match getStateForVersionBiggerThan m gDigest.endpoint maxRemoteVersion with
  | some localEpState => assocInsert deltaEpStateMap gDigest.endpoint localEpState
  | none => deltaEpStateMap

/-- The per-digest body of `gossiper::examine_gossiper`
(src/unnamed/part_000:1814-1861). -/
def examineStep (m : EpMap) (acc : List GossipDigest × EpMap) (g : GossipDigest) :
    List GossipDigest × EpMap :=
  let (deltaDigests, deltaMap) := acc
  match lookupEp m g.endpoint with
  | some epStatePtr =>
    let localGeneration := epStatePtr.hb.generation
    let maxLocalVersion := maxEndpointStateVersion epStatePtr
    if g.generation = localGeneration ∧ g.maxVersion = maxLocalVersion then acc
    else if localGeneration < g.generation then
      (requestAll g deltaDigests g.generation, deltaMap)
    else if g.generation < localGeneration then
      (deltaDigests, sendAll m g deltaMap 0)
    else
      if maxLocalVersion < g.maxVersion then
        (deltaDigests ++ [GossipDigest.mk g.endpoint g.generation maxLocalVersion], deltaMap)
      else if g.maxVersion < maxLocalVersion then
        (deltaDigests, sendAll m g deltaMap g.maxVersion)
      else acc
  | none => (requestAll g deltaDigests g.generation, deltaMap)

/-- `gossiper::examine_gossiper` (src/unnamed/part_000:1798): an empty digest
list is a shadow request answered with a zero digest per known endpoint;
otherwise each digest is compared with the local state, producing request
digests and state deltas. -/
def examineGossiper (m : EpMap) (gDigestList : List GossipDigest) :
    List GossipDigest × EpMap :=
  let digests := if gDigestList.isEmpty
                 then m.map (fun kv => GossipDigest.mk kv.1 0 0)
                 else gDigestList
  digests.foldl (examineStep m) ([], [])

/-- The per-source pending slot of the SYN and ACK handlers
(`syn_msg_pending` / `ack_msg_pending`, used at src/unnamed/part_000:242-286
and 356-404): the in-flight flag and the optional stashed message, here
identified by a number. -/
structure PendingSlot where
  pending : Bool
  stash : Option Nat
deriving DecidableEq, Repr

/-- The observable state of one source's SYN (or ACK) handler machinery:
the handler-table entry for the source (`none` before the first message
creates it via `operator[]`), the number of handler fibers currently
processing a message of this source, and the message currently being
processed. -/
structure CoalState where
  slot : Option PendingSlot
  inFlight : Nat
  current : Option Nat
deriving DecidableEq, Repr

/-- Transition labels of the per-source handler machinery. -/
inductive CoalLabel where
  | arrive (m : Nat)
  | finish
  | fail
deriving DecidableEq, Repr

/-- The transitions of `handle_syn_msg` / `handle_ack_msg`
(src/unnamed/part_000:223-286, 326-405) for one source.
`arrive`: `operator[]` creates the slot if needed; if `pending` the new
message replaces the stash and no handler starts; otherwise `pending := true`
and a handler fiber starts on the arrived message.
`finish`: a running fiber completes one send; with the slot erased it stops;
with a stashed message it consumes the stash and continues processing it;
otherwise it clears `pending` and stops.
`fail`: a running fiber hits an exception; if the slot exists it resets
`pending` and the stash; the fiber stops. -/
inductive CoalStep : CoalLabel → CoalState → CoalState → Prop where
  | arriveNew (m : Nat) (f : Nat) (c : Option Nat) :
      CoalStep (CoalLabel.arrive m) ⟨none, f, c⟩ ⟨some ⟨true, none⟩, f + 1, some m⟩
  | arriveBusy (m : Nat) (st : Option Nat) (f : Nat) (c : Option Nat) :
      CoalStep (CoalLabel.arrive m) ⟨some ⟨true, st⟩, f, c⟩ ⟨some ⟨true, some m⟩, f, c⟩
  | arriveIdle (m : Nat) (st : Option Nat) (f : Nat) (c : Option Nat) :
      CoalStep (CoalLabel.arrive m) ⟨some ⟨false, st⟩, f, c⟩ ⟨some ⟨true, st⟩, f + 1, some m⟩
  | finishGone (f : Nat) (c : Option Nat) :
      CoalStep CoalLabel.finish ⟨none, f + 1, c⟩ ⟨none, f, none⟩
  | finishQueued (p : Bool) (m : Nat) (f : Nat) (c : Option Nat) :
      CoalStep CoalLabel.finish ⟨some ⟨p, some m⟩, f + 1, c⟩ ⟨some ⟨p, none⟩, f + 1, some m⟩
  | finishEmpty (p : Bool) (f : Nat) (c : Option Nat) :
      CoalStep CoalLabel.finish ⟨some ⟨p, none⟩, f + 1, c⟩ ⟨some ⟨false, none⟩, f, none⟩
  | failGone (f : Nat) (c : Option Nat) :
      CoalStep CoalLabel.fail ⟨none, f + 1, c⟩ ⟨none, f, none⟩
  | failSlot (p : Bool) (st : Option Nat) (f : Nat) (c : Option Nat) :
      CoalStep CoalLabel.fail ⟨some ⟨p, st⟩, f + 1, c⟩ ⟨some ⟨false, none⟩, f, none⟩

/-- Before any message arrives: no slot, no fiber. -/
def coalInit : CoalState := ⟨none, 0, none⟩

/-- The states the SYN/ACK handler machinery of one source reaches from the
initial state. -/
inductive CoalReachable : CoalState → Prop where
  | init : CoalReachable coalInit
  | step (l : CoalLabel) (s s' : CoalState) :
      CoalReachable s → CoalStep l s s' → CoalReachable s'

/-- The handler-count invariant: the number of running fibers is one exactly
when the slot exists and is pending, zero otherwise. -/
def coalInv (s : CoalState) : Prop :=
  s.inFlight = match s.slot with
    | some ps => if ps.pending then 1 else 0
    | none => 0

/-- The address of the endpoint-state-map content write an event performs,
alive-bit/timestamp writes included (the reading of "every mutation of
`endpoint_state_map`" of the claim as stated). -/
def mutAddrAll : Ev → Option Addr
  | Ev.mutateState ep => some ep
  | Ev.touch ep => some ep
  | _ => none

/-- The address of the endpoint-state-map content write an event performs,
counting only generation/heartbeat/application-content writes. -/
def mutAddrContent : Ev → Option Addr
  | Ev.mutateState ep => some ep
  | _ => none

/-- `fanoutCovered sel tr` holds when every map write selected by `sel` is
followed, later in the trace (hence before the operation completes), by a
replication fan-out for the same endpoint. -/
def fanoutCovered (sel : Ev → Option Addr) : List Ev → Bool
  | [] => true
  | ev :: rest =>
    (match sel ev with
     | some ep => rest.contains (Ev.fanout ep)
     | none => true) && fanoutCovered sel rest

section AssocLemmas

variable {α β : Type} [DecidableEq α]

theorem assocLookup_nil (k : α) : assocLookup ([] : List (α × β)) k = none := rfl

theorem assocLookup_cons (k' : α) (v' : β) (l : List (α × β)) (k : α) :
    assocLookup ((k', v') :: l) k = if k' = k then some v' else assocLookup l k := by
  by_cases h : k' = k
  · rw [assocLookup, List.find?_cons_of_pos _ (by simp [h]), if_pos h]
    rfl
  · rw [assocLookup, List.find?_cons_of_neg _ (by simp [h]), if_neg h]
    rfl

theorem assocInsert_cons (k' : α) (v' : β) (rest : List (α × β)) (k : α) (v : β) :
    assocInsert ((k', v') :: rest) k v =
      if k' = k then (k', v) :: rest else (k', v') :: assocInsert rest k v := by
  by_cases h : k' = k <;> simp [assocInsert, h]

theorem assocModify_cons (kv : α × β) (rest : List (α × β)) (k : α) (f : β → β) :
    assocModify (kv :: rest) k f =
      (if kv.1 = k then (kv.1, f kv.2) else kv) :: assocModify rest k f := by
  by_cases h : kv.1 = k <;> simp [assocModify, h]

theorem assocErase_cons (kv : α × β) (rest : List (α × β)) (k : α) :
    assocErase (kv :: rest) k =
      if kv.1 = k then assocErase rest k else kv :: assocErase rest k := by
  by_cases h : kv.1 = k <;> simp [assocErase, List.filter_cons, h]

theorem assocLookup_insert_self (l : List (α × β)) (k : α) (v : β) :
    assocLookup (assocInsert l k v) k = some v := by
  induction l with
  | nil =>
    show assocLookup [(k, v)] k = some v
    rw [assocLookup_cons, if_pos rfl]
  | cons kv rest ih =>
    rcases kv with ⟨a, b⟩
    rw [assocInsert_cons]
    by_cases ha : a = k
    · rw [if_pos ha, assocLookup_cons, if_pos ha]
    · rw [if_neg ha, assocLookup_cons, if_neg ha]
      exact ih

theorem assocLookup_insert_ne (l : List (α × β)) (k : α) (v : β) (k' : α) (h : k' ≠ k) :
    assocLookup (assocInsert l k v) k' = assocLookup l k' := by
  induction l with
  | nil =>
    show assocLookup [(k, v)] k' = assocLookup [] k'
    rw [assocLookup_cons, if_neg (fun hh => h hh.symm)]
  | cons kv rest ih =>
    rcases kv with ⟨a, b⟩
    rw [assocInsert_cons]
    by_cases ha : a = k
    · rw [if_pos ha, assocLookup_cons, assocLookup_cons,
        if_neg (fun hh => h (hh.symm.trans ha)), if_neg (fun hh => h (hh.symm.trans ha))]
    · rw [if_neg ha, assocLookup_cons, assocLookup_cons]
      by_cases hak : a = k'
      · rw [if_pos hak, if_pos hak]
      · rw [if_neg hak, if_neg hak, ih]

theorem assocLookup_modify_self (l : List (α × β)) (k : α) (f : β → β) :
    assocLookup (assocModify l k f) k = (assocLookup l k).map f := by
  induction l with
  | nil => rfl
  | cons kv rest ih =>
    rcases kv with ⟨a, b⟩
    by_cases ha : a = k
    · subst ha
      simp [assocModify_cons, assocLookup_cons]
    · simp [assocModify_cons, assocLookup_cons, ha, ih]

theorem assocLookup_modify_ne (l : List (α × β)) (k : α) (f : β → β) (k' : α) (h : k' ≠ k) :
    assocLookup (assocModify l k f) k' = assocLookup l k' := by
  induction l with
  | nil => rfl
  | cons kv rest ih =>
    rcases kv with ⟨a, b⟩
    rw [assocModify_cons]
    by_cases ha : a = k
    · rw [if_pos ha, assocLookup_cons, assocLookup_cons,
        if_neg (fun hh => h (hh.symm.trans ha)), if_neg (fun hh => h (hh.symm.trans ha)), ih]
    · rw [if_neg ha, assocLookup_cons, assocLookup_cons]
      by_cases hak : a = k'
      · rw [if_pos hak, if_pos hak]
      · rw [if_neg hak, if_neg hak, ih]

theorem assocLookup_erase_self (l : List (α × β)) (k : α) :
    assocLookup (assocErase l k) k = none := by
  induction l with
  | nil => rfl
  | cons kv rest ih =>
    rw [assocErase_cons]
    by_cases ha : kv.1 = k
    · rw [if_pos ha]
      exact ih
    · rcases kv with ⟨a, b⟩
      rw [if_neg ha, assocLookup_cons, if_neg ha]
      exact ih

theorem assocLookup_erase_ne (l : List (α × β)) (k : α) (k' : α) (h : k' ≠ k) :
    assocLookup (assocErase l k) k' = assocLookup l k' := by
  induction l with
  | nil => rfl
  | cons kv rest ih =>
    rcases kv with ⟨a, b⟩
    rw [assocErase_cons]
    by_cases ha : a = k
    · rw [if_pos ha, assocLookup_cons, if_neg (fun hh => h (hh.symm.trans ha)), ih]
    · rw [if_neg ha, assocLookup_cons, assocLookup_cons]
      by_cases hak : a = k'
      · rw [if_pos hak, if_pos hak]
      · rw [if_neg hak, if_neg hak, ih]

theorem assocLookup_append_of_some (a b : List (α × β)) (k : α) (v : β)
    (h : assocLookup a k = some v) : assocLookup (a ++ b) k = some v := by
  induction a with
  | nil => simp [assocLookup_nil] at h
  | cons kv rest ih =>
    rcases kv with ⟨x, y⟩
    rw [assocLookup_cons] at h
    rw [List.cons_append, assocLookup_cons]
    by_cases hx : x = k
    · rw [if_pos hx]
      rw [if_pos hx] at h
      exact h
    · rw [if_neg hx]
      rw [if_neg hx] at h
      exact ih h

theorem assocLookup_append_of_none (a b : List (α × β)) (k : α)
    (h : assocLookup a k = none) : assocLookup (a ++ b) k = assocLookup b k := by
  induction a with
  | nil => rfl
  | cons kv rest ih =>
    rcases kv with ⟨x, y⟩
    rw [assocLookup_cons] at h
    rw [List.cons_append, assocLookup_cons]
    by_cases hx : x = k
    · rw [if_pos hx] at h
      exact absurd h (by simp)
    · rw [if_neg hx]
      rw [if_neg hx] at h
      exact ih h

end AssocLemmas

theorem insertSortedDigest_perm (d : GossipDigest) (l : List GossipDigest) :
    (insertSortedDigest d l).Perm (d :: l) := by
  induction l with
  | nil => simp [insertSortedDigest]
  | cons e rest ih =>
    rw [insertSortedDigest]
    by_cases h : digestLe d e = true
    · rw [if_pos h]
    · rw [if_neg h]
      exact (ih.cons e).trans (List.Perm.swap d e rest)

theorem sortDigests_perm (l : List GossipDigest) : (sortDigests l).Perm l := by
  induction l with
  | nil => simp [sortDigests]
  | cons d rest ih =>
    exact (insertSortedDigest_perm d (sortDigests rest)).trans (ih.cons d)

theorem insertSortedDigest_pairwise (d : GossipDigest) (l : List GossipDigest)
    (h : l.Pairwise (fun a b => a.maxVersion ≤ b.maxVersion)) :
    (insertSortedDigest d l).Pairwise (fun a b => a.maxVersion ≤ b.maxVersion) := by
  induction l with
  | nil => simp [insertSortedDigest]
  | cons e rest ih =>
    rw [insertSortedDigest]
    rcases List.pairwise_cons.mp h with ⟨he, hrest⟩
    by_cases hd : digestLe d e = true
    · rw [if_pos hd]
      refine List.pairwise_cons.mpr ⟨?_, h⟩
      intro x hx
      have hde : d.maxVersion ≤ e.maxVersion := by simpa [digestLe] using hd
      rcases List.mem_cons.mp hx with rfl | hx'
      · exact hde
      · exact le_trans hde (he x hx')
    · rw [if_neg hd]
      have hed : e.maxVersion ≤ d.maxVersion := by
        have hnot : ¬ d.maxVersion ≤ e.maxVersion := by simpa [digestLe] using hd
        omega
      refine List.pairwise_cons.mpr ⟨?_, ih hrest⟩
      intro x hx
      rcases List.mem_cons.mp ((insertSortedDigest_perm d rest).mem_iff.mp hx) with rfl | hx'
      · exact hed
      · exact he x hx'

theorem sortDigests_pairwise (l : List GossipDigest) :
    (sortDigests l).Pairwise (fun a b => a.maxVersion ≤ b.maxVersion) := by
  induction l with
  | nil => simp [sortDigests]
  | cons d rest ih => exact insertSortedDigest_pairwise d (sortDigests rest) ih

theorem epToDigestMap_go_preserves (l : List GossipDigest)
    (acc : List (Addr × GossipDigest)) (a : Addr) (v : GossipDigest)
    (h : assocLookup acc a = some v) :
    assocLookup (l.foldl (fun acc d =>
      if (assocLookup acc d.endpoint).isSome then acc else acc ++ [(d.endpoint, d)]) acc) a
      = some v := by
  induction l generalizing acc with
  | nil => exact h
  | cons d rest ih =>
    rw [List.foldl_cons]
    by_cases hd : (assocLookup acc d.endpoint).isSome
    · rw [if_pos hd]
      exact ih acc h
    · rw [if_neg hd]
      exact ih _ (assocLookup_append_of_some _ _ _ _ h)

theorem epToDigestMap_go_lookup (d : GossipDigest) :
    ∀ (l : List GossipDigest) (acc : List (Addr × GossipDigest)),
      (l.map GossipDigest.endpoint).Nodup → d ∈ l →
      assocLookup acc d.endpoint = none →
      assocLookup (l.foldl (fun acc g =>
        if (assocLookup acc g.endpoint).isSome then acc else acc ++ [(g.endpoint, g)]) acc)
          d.endpoint = some d
  | [], _, _, hd, _ => absurd hd (by simp)
  | d0 :: rest, acc, hnd, hd, hacc => by
    rw [List.foldl_cons]
    rcases List.mem_cons.mp hd with rfl | hmem
    · rw [if_neg (by simp [hacc])]
      have h1 : assocLookup (acc ++ [(d.endpoint, d)]) d.endpoint = some d := by
        rw [assocLookup_append_of_none _ _ _ hacc, assocLookup_cons, if_pos rfl]
      exact epToDigestMap_go_preserves rest _ _ _ h1
    · have hnd1 : (GossipDigest.endpoint d0 :: rest.map GossipDigest.endpoint).Nodup := by
        rw [List.map_cons] at hnd
        exact hnd
      have hnd0 := List.nodup_cons.mp hnd1
      have hne : d0.endpoint ≠ d.endpoint := by
        intro hh
        exact hnd0.1 (hh ▸ List.mem_map_of_mem GossipDigest.endpoint hmem)
      by_cases hcase : (assocLookup acc d0.endpoint).isSome
      · rw [if_pos hcase]
        exact epToDigestMap_go_lookup d rest acc hnd0.2 hmem hacc
      · rw [if_neg hcase]
        have hacc' : assocLookup (acc ++ [(d0.endpoint, d0)]) d.endpoint = none := by
          rw [assocLookup_append_of_none _ _ _ hacc, assocLookup_cons, if_neg hne]
          rfl
        exact epToDigestMap_go_lookup d rest _ hnd0.2 hmem hacc'

theorem epToDigestMap_lookup (l : List GossipDigest)
    (hnd : (l.map GossipDigest.endpoint).Nodup) (d : GossipDigest) (hd : d ∈ l) :
    assocLookup (epToDigestMap l) d.endpoint = some d :=
  epToDigestMap_go_lookup d l [] hnd hd rfl

/-- C8 counterexample.  On a digest list that repeats an endpoint, `do_sort`
does not return a permutation of its input: the endpoint-to-digest map keeps
only the first digest per endpoint, so the second digest for endpoint 1 is
replaced by a copy of the first. -/
theorem doSort_not_perm_on_duplicate_endpoints :
    ¬ ((doSort []
          [GossipDigest.mk 1 1 0, GossipDigest.mk 1 1 5]).Perm
        [GossipDigest.mk 1 1 0, GossipDigest.mk 1 1 5] ∧
       (doSort []
          [GossipDigest.mk 1 1 0, GossipDigest.mk 1 1 5]).Pairwise
        (fun a b => divergence [] b ≤ divergence [] a)) := by
  intro h
  exact absurd h.1 (by decide)

/-- C8 (amended).  For digest lists whose endpoints are pairwise distinct,
`do_sort` returns a permutation of the input ordered by descending
`|local_max_version − remote_max_version|` (with the local maximum version 0
for endpoints unknown locally). -/
theorem doSort_perm_sorted (m : EpMap) (l : List GossipDigest)
    (hnd : (l.map GossipDigest.endpoint).Nodup) :
    (doSort m l).Perm l ∧
      (doSort m l).Pairwise (fun a b => divergence m b ≤ divergence m a) := by
  classical
  set f : GossipDigest → GossipDigest := fun d =>
    GossipDigest.mk d.endpoint d.generation |localMaxVersionFor m d.endpoint - d.maxVersion|
    with hf
  set g : GossipDigest → GossipDigest := fun d =>
    (assocLookup (epToDigestMap l) d.endpoint).getD (GossipDigest.mk d.endpoint 0 0) with hg
  have hdoSort : doSort m l = ((sortDigests (l.map f)).reverse).map g := rfl
  have hgf : ∀ d ∈ l, g (f d) = d := by
    intro d hd
    show (assocLookup (epToDigestMap l) (f d).endpoint).getD _ = d
    have hep : (f d).endpoint = d.endpoint := rfl
    rw [hep, epToDigestMap_lookup l hnd d hd]
    rfl
  have hperm1 : ((sortDigests (l.map f)).reverse).Perm (l.map f) :=
    (List.reverse_perm _).trans (sortDigests_perm _)
  have hmapid : (l.map f).map g = l := by
    rw [List.map_map]
    calc l.map (g ∘ f) = l.map id := List.map_congr_left (fun d hd => hgf d hd)
      _ = l := List.map_id l
  constructor
  · rw [hdoSort]
    have hpm := hperm1.map g
    rw [hmapid] at hpm
    exact hpm
  · rw [hdoSort]
    rw [List.pairwise_map]
    have hs : ((sortDigests (l.map f)).reverse).Pairwise
        (fun a b => b.maxVersion ≤ a.maxVersion) :=
      List.pairwise_reverse.mpr (sortDigests_pairwise (l.map f))
    refine hs.imp_of_mem ?_
    intro a b ha hb hab
    have hmema : a ∈ l.map f := hperm1.mem_iff.mp ha
    have hmemb : b ∈ l.map f := hperm1.mem_iff.mp hb
    rcases List.mem_map.mp hmema with ⟨da, hda, rfl⟩
    rcases List.mem_map.mp hmemb with ⟨db, hdb, rfl⟩
    have hga : g (f da) = da := hgf da hda
    have hgb : g (f db) = db := hgf db hdb
    rw [hga, hgb]
    have hka : (f da).maxVersion = divergence m da := rfl
    have hkb : (f db).maxVersion = divergence m db := rfl
    rw [hka, hkb] at hab
    exact hab

/-- C8 witness for the amended theorem at a concrete nodup input. -/
theorem doSort_perm_sorted_witness :
    (doSort [] [GossipDigest.mk 1 2 3, GossipDigest.mk 2 0 1]).Perm
        [GossipDigest.mk 1 2 3, GossipDigest.mk 2 0 1] ∧
      (doSort [] [GossipDigest.mk 1 2 3, GossipDigest.mk 2 0 1]).Pairwise
        (fun a b => divergence [] b ≤ divergence [] a) :=
  doSort_perm_sorted [] [GossipDigest.mk 1 2 3, GossipDigest.mk 2 0 1] (by decide)

theorem assocInsert_of_not_mem {α β : Type} [DecidableEq α]
    (l : List (α × β)) (k : α) (v : β) (h : k ∉ l.map Prod.fst) :
    assocInsert l k v = l ++ [(k, v)] := by
  induction l with
  | nil => rfl
  | cons kv rest ih =>
    rcases kv with ⟨a, b⟩
    rw [assocInsert_cons, if_neg, List.cons_append, ih]
    · intro hh
      exact h (by simp at hh ⊢ ; exact Or.inr hh)
    · intro hh
      exact h (by simp [hh])

theorem gsfv_fold_some (cut : Int) (hb : HeartBeatState) (al : Bool) (ts : Time) :
    ∀ (apps pre : List (AppState × VersionedValue)),
      (apps.map Prod.fst).Nodup →
      (∀ kv ∈ apps, kv.1 ∉ pre.map Prod.fst) →
      apps.foldl
        (fun reqd kv =>
          if cut < kv.2.version then
            some ((reqd.getD (EndpointState.mk hb [] true 0)).addApp kv.1 kv.2)
          else reqd)
        (some (EndpointState.mk hb pre al ts))
      = some (EndpointState.mk hb (pre ++ apps.filter (fun kv => cut < kv.2.version)) al ts)
  | [], pre, _, _ => by simp
  | kv :: rest, pre, hnd, hdisj => by
    have hnd1 : (kv.1 :: rest.map Prod.fst).Nodup := by
      rw [List.map_cons] at hnd
      exact hnd
    have hnd2 := List.nodup_cons.mp hnd1
    rw [List.foldl_cons]
    by_cases hv : cut < kv.2.version
    · rw [if_pos hv]
      have hins : assocInsert pre kv.1 kv.2 = pre ++ [(kv.1, kv.2)] :=
        assocInsert_of_not_mem pre kv.1 kv.2 (hdisj kv (by simp))
      have hred : some (((some (EndpointState.mk hb pre al ts)).getD
            (EndpointState.mk hb [] true 0)).addApp kv.1 kv.2)
          = some (EndpointState.mk hb (pre ++ [(kv.1, kv.2)]) al ts) := by
        rw [Option.getD_some, EndpointState.addApp]
        simp only [hins]
      rw [hred]
      have hdisj' : ∀ kv' ∈ rest, kv'.1 ∉ (pre ++ [(kv.1, kv.2)]).map Prod.fst := by
        intro kv' hkv' hmem
        rw [List.map_append] at hmem
        rcases List.mem_append.mp hmem with hpre | hone
        · exact hdisj kv' (by simp [hkv']) hpre
        · have heq : kv'.1 = kv.1 := by simpa using hone
          exact hnd2.1 (heq ▸ List.mem_map_of_mem Prod.fst hkv')
      rw [gsfv_fold_some cut hb al ts rest (pre ++ [(kv.1, kv.2)]) hnd2.2 hdisj']
      have hfc : List.filter (fun kv => decide (cut < kv.2.version)) (kv :: rest)
          = kv :: List.filter (fun kv => decide (cut < kv.2.version)) rest := by
        rw [List.filter_cons, if_pos (by simpa using hv)]
      rw [hfc, List.append_assoc]
      rfl
    · rw [if_neg hv]
      have hdisj' : ∀ kv' ∈ rest, kv'.1 ∉ pre.map Prod.fst := by
        intro kv' hkv'
        exact hdisj kv' (by simp [hkv'])
      rw [gsfv_fold_some cut hb al ts rest pre hnd2.2 hdisj']
      have hfc : List.filter (fun kv => decide (cut < kv.2.version)) (kv :: rest)
          = List.filter (fun kv => decide (cut < kv.2.version)) rest := by
        rw [List.filter_cons, if_neg (by simpa using hv)]
      rw [hfc]

theorem gsfv_fold_none (cut : Int) (hb : HeartBeatState) :
    ∀ (apps : List (AppState × VersionedValue)),
      (apps.map Prod.fst).Nodup →
      apps.foldl
        (fun reqd kv =>
          if cut < kv.2.version then
            some ((reqd.getD (EndpointState.mk hb [] true 0)).addApp kv.1 kv.2)
          else reqd)
        none
      = (if (apps.filter (fun kv => cut < kv.2.version)).isEmpty then none
         else some (EndpointState.mk hb (apps.filter (fun kv => cut < kv.2.version)) true 0))
  | [], _ => by simp
  | kv :: rest, hnd => by
    have hnd1 : (kv.1 :: rest.map Prod.fst).Nodup := by
      rw [List.map_cons] at hnd
      exact hnd
    have hnd2 := List.nodup_cons.mp hnd1
    rw [List.foldl_cons]
    by_cases hv : cut < kv.2.version
    · rw [if_pos hv]
      have hred : some (((none : Option EndpointState).getD
            (EndpointState.mk hb [] true 0)).addApp kv.1 kv.2)
          = some (EndpointState.mk hb [(kv.1, kv.2)] true 0) := by
        rw [Option.getD_none, EndpointState.addApp]
        rfl
      rw [hred]
      have hdisj : ∀ kv' ∈ rest,
          kv'.1 ∉ ([(kv.1, kv.2)] : List (AppState × VersionedValue)).map Prod.fst := by
        intro kv' hkv' hmem
        have heq : kv'.1 = kv.1 := by simpa using hmem
        exact hnd2.1 (heq ▸ List.mem_map_of_mem Prod.fst hkv')
      rw [gsfv_fold_some cut hb true 0 rest [(kv.1, kv.2)] hnd2.2 hdisj]
      have hfc : List.filter (fun kv => decide (cut < kv.2.version)) (kv :: rest)
          = kv :: List.filter (fun kv => decide (cut < kv.2.version)) rest := by
        rw [List.filter_cons, if_pos (by simpa using hv)]
      rw [hfc]
      rw [if_neg (by simp)]
      rfl
    · rw [if_neg hv]
      rw [gsfv_fold_none cut hb rest hnd2.2]
      have hfc : List.filter (fun kv => decide (cut < kv.2.version)) (kv :: rest)
          = List.filter (fun kv => decide (cut < kv.2.version)) rest := by
        rw [List.filter_cons, if_neg (by simpa using hv)]
      rw [hfc]

/-- The content of `get_state_for_version_bigger_than`: when the endpoint is
known, the result is exactly the application states with version above the
cut (on the local heartbeat), present iff the heartbeat or any application
state exceeds the cut. -/
theorem getStateForVersionBiggerThan_spec (m : EpMap) (ep : Addr) (cut : Int)
    (es : EndpointState) (h : lookupEp m ep = some es)
    (hnd : (es.apps.map Prod.fst).Nodup) :
    getStateForVersionBiggerThan m ep cut =
      (if cut < es.hb.version ∨ es.apps.any (fun kv => cut < kv.2.version) then
        some (EndpointState.mk es.hb (es.apps.filter (fun kv => cut < kv.2.version)) true 0)
       else none) := by
  have hfilter : (es.apps.filter (fun kv => cut < kv.2.version)).isEmpty = true ↔
      ¬ (es.apps.any (fun kv => cut < kv.2.version) = true) := by
    simp [List.isEmpty_iff, List.filter_eq_nil_iff, List.any_eq_true]
  rw [getStateForVersionBiggerThan, h]
  simp only [freshEndpointState]
  by_cases hhb : cut < es.hb.version
  · simp only [if_pos hhb]
    rw [gsfv_fold_some cut es.hb true 0 es.apps [] hnd (by simp)]
    rw [if_pos (Or.inl hhb)]
    rfl
  · simp only [if_neg hhb]
    rw [gsfv_fold_none cut es.hb es.apps hnd]
    by_cases hany : es.apps.any (fun kv => cut < kv.2.version) = true
    · rw [if_neg (by rw [hfilter]; exact fun hh => hh hany), if_pos (Or.inr hany)]
    · rw [if_pos (hfilter.mpr hany),
        if_neg (by rintro (h1 | h2) <;> [exact hhb h1; exact hany h2])]

/-- The reply the specification ascribes to a digest that sends local data:
the delta map gains the endpoint's state exactly when some component (the
heartbeat or an application state) has version above the cut, and that state
carries exactly the application states with version above the cut. -/
def claimedDelta (es : EndpointState) (cut : Int) (deltaMap : EpMap) (ep : Addr) : EpMap :=
  if cut < es.hb.version ∨ es.apps.any (fun kv => cut < kv.2.version) then
    assocInsert deltaMap ep
      (EndpointState.mk es.hb (es.apps.filter (fun kv => cut < kv.2.version)) true 0)
  else deltaMap

theorem sendAll_eq_claimedDelta (m : EpMap) (g : GossipDigest) (deltaMap : EpMap)
    (cut : Int) (es : EndpointState) (h : lookupEp m g.endpoint = some es)
    (hnd : (es.apps.map Prod.fst).Nodup) :
    sendAll m g deltaMap cut = claimedDelta es cut deltaMap g.endpoint := by
  rw [sendAll, getStateForVersionBiggerThan_spec m g.endpoint cut es h hnd, claimedDelta]
  by_cases hc : cut < es.hb.version ∨ es.apps.any (fun kv => cut < kv.2.version) = true
  · rw [if_pos hc, if_pos hc]
  · rw [if_neg hc, if_neg hc]

/-- C4.  For a digest `(peer, g_r, v_r)` of a received SYN, with local state
`(g_l, v_l)` for that peer, `examine_gossiper` produces exactly: a request
digest `(peer, g_r, 0)` when there is no local state or `g_r > g_l`; the full
local state — exactly the application states with version above 0 — when
`g_r < g_l`; a request digest `(peer, g_r, v_l)` when generations are equal
and `v_r > v_l`; the local delta carrying exactly the application states with
version strictly above `v_r` when generations are equal and `v_r < v_l`; and
nothing when generation and maximum version both agree. -/
theorem examineGossiper_digest_cases (m : EpMap) (g : GossipDigest)
    (hnd : ∀ es, lookupEp m g.endpoint = some es → (es.apps.map Prod.fst).Nodup) :
    (lookupEp m g.endpoint = none →
      examineGossiper m [g] = ([GossipDigest.mk g.endpoint g.generation 0], [])) ∧
    (∀ es, lookupEp m g.endpoint = some es →
      (es.hb.generation < g.generation →
        examineGossiper m [g] = ([GossipDigest.mk g.endpoint g.generation 0], [])) ∧
      (g.generation < es.hb.generation →
        examineGossiper m [g] = ([], claimedDelta es 0 [] g.endpoint)) ∧
      (g.generation = es.hb.generation → maxEndpointStateVersion es < g.maxVersion →
        examineGossiper m [g] =
          ([GossipDigest.mk g.endpoint g.generation (maxEndpointStateVersion es)], [])) ∧
      (g.generation = es.hb.generation → g.maxVersion < maxEndpointStateVersion es →
        examineGossiper m [g] = ([], claimedDelta es g.maxVersion [] g.endpoint)) ∧
      (g.generation = es.hb.generation → g.maxVersion = maxEndpointStateVersion es →
        examineGossiper m [g] = ([], []))) := by
  have hsingle : examineGossiper m [g] = examineStep m ([], []) g := by
    rw [examineGossiper]
    simp
  constructor
  · intro h
    rw [hsingle, examineStep, h]
    simp [requestAll]
  · intro es hes
    refine ⟨?_, ?_, ?_, ?_, ?_⟩
    · intro h
      have hne : ¬ (g.generation = es.hb.generation ∧
          g.maxVersion = maxEndpointStateVersion es) := by
        rintro ⟨h1, _⟩
        omega
      rw [hsingle, examineStep, hes]
      simp only [if_neg hne, if_pos h]
      simp [requestAll]
    · intro h
      have hne : ¬ (g.generation = es.hb.generation ∧
          g.maxVersion = maxEndpointStateVersion es) := by
        rintro ⟨h1, _⟩
        omega
      have hnotlt : ¬ es.hb.generation < g.generation := by omega
      rw [hsingle, examineStep, hes]
      simp only [if_neg hne, if_neg hnotlt, if_pos h]
      rw [sendAll_eq_claimedDelta m g [] 0 es hes (hnd es hes)]
    · intro hgen hv
      have hne : ¬ (g.generation = es.hb.generation ∧
          g.maxVersion = maxEndpointStateVersion es) := by
        rintro ⟨_, h2⟩
        omega
      have hnotgt : ¬ es.hb.generation < g.generation := by omega
      have hnotlt : ¬ g.generation < es.hb.generation := by omega
      rw [hsingle, examineStep, hes]
      simp only [if_neg hne, if_neg hnotgt, if_neg hnotlt, if_pos hv]
      simp
    · intro hgen hv
      have hne : ¬ (g.generation = es.hb.generation ∧
          g.maxVersion = maxEndpointStateVersion es) := by
        rintro ⟨_, h2⟩
        omega
      have hnotgt : ¬ es.hb.generation < g.generation := by omega
      have hnotlt : ¬ g.generation < es.hb.generation := by omega
      have hnotv : ¬ maxEndpointStateVersion es < g.maxVersion := by omega
      rw [hsingle, examineStep, hes]
      simp only [if_neg hne, if_neg hnotgt, if_neg hnotlt, if_neg hnotv, if_pos hv]
      rw [sendAll_eq_claimedDelta m g [] g.maxVersion es hes (hnd es hes)]
    · intro hgen hv
      rw [hsingle, examineStep, hes]
      simp only [if_pos (And.intro hgen hv)]

/-- C4 witness: the equal-generation, lower-remote-version branch at a
concrete local map. -/
theorem examineGossiper_digest_cases_witness :
    examineGossiper
        [((7 : Addr),
          EndpointState.mk (HeartBeatState.mk 5 3)
            [(AppState.STATUS, VersionedValue.mk "NORMAL" 4)] true 0)]
        [GossipDigest.mk 7 5 2]
      = ([], claimedDelta
          (EndpointState.mk (HeartBeatState.mk 5 3)
            [(AppState.STATUS, VersionedValue.mk "NORMAL" 4)] true 0) 2 [] 7) := by
  have h := examineGossiper_digest_cases
    [((7 : Addr),
      EndpointState.mk (HeartBeatState.mk 5 3)
        [(AppState.STATUS, VersionedValue.mk "NORMAL" 4)] true 0)]
    (GossipDigest.mk 7 5 2)
    (by
      intro es hes
      have hes' : some (EndpointState.mk (HeartBeatState.mk 5 3)
          [(AppState.STATUS, VersionedValue.mk "NORMAL" 4)] true 0) = some es := hes
      injection hes' with hh
      rw [← hh]
      decide)
  exact (((h.2 _ rfl).2.2.2.1) rfl (by decide))

/-- C7.  An incoming ACK or ACK2 message counts toward in-flight significant
traffic (`should_count_as_msg_processing` returns true) exactly when some
per-peer endpoint state map in the message contains an application-state key
outside {LOAD, VIEW_BACKLOG, CACHE_HITRATES}. -/
theorem shouldCount_iff_significant_key (map : List (Addr × EndpointState)) :
    shouldCountAsMsgProcessing map = true ↔
      ∃ x ∈ map, ∃ entry ∈ x.2.apps,
        entry.1 ≠ AppState.LOAD ∧ entry.1 ≠ AppState.VIEW_BACKLOG ∧
          entry.1 ≠ AppState.CACHE_HITRATES := by
  simp [shouldCountAsMsgProcessing, List.any_eq_true, not_or, and_assoc]

theorem lookup_modify_isSome (m : EpMap) (a b : Addr) (f : EndpointState → EndpointState) :
    (lookupEp (assocModify m a f) b).isSome = (lookupEp m b).isSome := by
  by_cases h : b = a
  · subst h
    rw [lookupEp, lookupEp, assocLookup_modify_self]
    cases assocLookup m b <;> rfl
  · rw [lookupEp, lookupEp, assocLookup_modify_ne _ _ _ _ h]

/-- A fixed ambient environment for the concrete instances below: own
address 0, wall clock at 100000 ms, generation clock at 0 s, no shadow round,
an empty token ring, ring delay 30000 ms. -/
def envA : Env :=
  { broadcast := 0, now := 100000, genNow := 0, shadow := false,
    isMember := fun _ => false, ringDelayMs := 30000 }

/-- The empty gossiper state. -/
def gs0 : GState :=
  { epStateMap := [], liveEndpoints := [], liveEndpointsVersion := 0,
    unreachableEndpoints := [], justRemovedEndpoints := [],
    expireTimeEndpointMap := [], pendingMarkAlive := [],
    endpointsToTalkWith := [], seeds := [], synHandlers := [],
    ackHandlers := [], versionGen := 0 }

/-- A live NORMAL endpoint state at generation 100. -/
def esNormal : EndpointState :=
  EndpointState.mk (HeartBeatState.mk 100 1)
    [(AppState.STATUS, VersionedValue.mk "NORMAL" 1)] true 0

/-- The own endpoint's state in the concrete instances. -/
def esSelf : EndpointState :=
  EndpointState.mk (HeartBeatState.mk 50 1) [] true 0

/-- An incoming state whose generation exceeds the one-year sanity bound of
`envA` (genNow = 0). -/
def esCorrupt : EndpointState :=
  EndpointState.mk (HeartBeatState.mk (MAX_GENERATION_DIFFERENCE + 1) 0) [] true 0

/-- C3 counterexample.  The claim as stated fails when the peer has no local
entry: the corrupt-generation check of `do_apply_state_locally` sits inside
the branch for an existing local state, so an incoming state whose generation
exceeds the bound is applied — here through the no-listener apply path, which
creates `endpoint_state_map[5]`. -/
theorem doApply_corrupt_gen_claim_cex :
    envA.genNow + MAX_GENERATION_DIFFERENCE < esCorrupt.hb.generation ∧
      lookupEp (doApplyStateLocally envA gs0 5 esCorrupt false).1.epStateMap 5
        ≠ lookupEp gs0.epStateMap 5 := by
  constructor
  · decide
  · decide

/-- C3 (amended).  When the peer already has a local entry, an incoming state
whose generation is more than MAX_GENERATION_DIFFERENCE ahead of the local
generation clock is rejected: the state and the event trace are untouched, in
both apply modes. -/
theorem doApply_corrupt_gen_rejected (e : Env) (s : GState) (node : Addr)
    (rs : EndpointState) (mode : Bool) (es : EndpointState)
    (h : lookupEp s.epStateMap node = some es)
    (hgen : e.genNow + MAX_GENERATION_DIFFERENCE < rs.hb.generation) :
    doApplyStateLocally e s node rs mode = (s, []) := by
  rw [doApplyStateLocally, h]
  simp only [if_pos hgen]

/-- C3 witness: a corrupt-generation delta for a known peer is dropped. -/
theorem doApply_corrupt_gen_rejected_witness :
    doApplyStateLocally envA
        { gs0 with epStateMap := [(5, esNormal)] } 5 esCorrupt true
      = ({ gs0 with epStateMap := [(5, esNormal)] }, []) :=
  doApply_corrupt_gen_rejected envA _ 5 esCorrupt true esNormal (by decide) (by decide)

/-- C9.  `mark_alive` is a no-op when the address is already pending;
otherwise it appends the address to the pending set and clears the local
entry's alive bit, and its trace is the not-alive write followed by the echo
send — so the peer is observed not alive until the echo reply
(`onEchoReply` → `real_mark_alive`) completes the handshake. -/
theorem markAlive_pending_or_first_phase (e : Env) (s : GState) (addr : Addr) :
    (s.pendingMarkAlive.contains addr = true → markAlive e s addr = (s, [])) ∧
    (s.pendingMarkAlive.contains addr = false →
      (lookupEp s.epStateMap e.broadcast).isSome = true →
      (markAlive e s addr).1.pendingMarkAlive = s.pendingMarkAlive ++ [addr] ∧
        lookupEp (markAlive e s addr).1.epStateMap addr
          = (lookupEp s.epStateMap addr).map (fun st => { st with alive := false }) ∧
        (markAlive e s addr).2 = [Ev.touch addr, Ev.echo addr]) := by
  constructor
  · intro h
    rw [markAlive, if_pos h]
  · intro h hb
    have hb2 : (lookupEp (assocModify s.epStateMap addr
        (fun st => { st with alive := false })) e.broadcast).isSome = true := by
      rw [lookup_modify_isSome]
      exact hb
    rw [markAlive, if_neg (by rw [h]; exact Bool.false_ne_true), if_pos hb2]
    refine ⟨rfl, ?_, rfl⟩
    rw [lookupEp, assocLookup_modify_self]
    rfl

/-- C9 witness: the first phase at a concrete state with a known peer 5. -/
theorem markAlive_first_phase_witness :
    (markAlive envA { gs0 with epStateMap := [(0, esSelf), (5, esNormal)] } 5).1.pendingMarkAlive
        = ([] : List Addr) ++ [5] ∧
      lookupEp (markAlive envA
          { gs0 with epStateMap := [(0, esSelf), (5, esNormal)] } 5).1.epStateMap 5
        = (lookupEp ([(0, esSelf), (5, esNormal)] : EpMap) 5).map
            (fun st => { st with alive := false }) ∧
      (markAlive envA { gs0 with epStateMap := [(0, esSelf), (5, esNormal)] } 5).2
        = [Ev.touch 5, Ev.echo 5] :=
  (markAlive_pending_or_first_phase envA
      { gs0 with epStateMap := [(0, esSelf), (5, esNormal)] } 5).2 (by decide) (by decide)

theorem convictFuel_noop_of_dead (n : Nat) (e : Env) (s : GState) (p : Addr)
    (h : lookupEp s.epStateMap p = none ∨
      ∃ st, lookupEp s.epStateMap p = some st ∧ st.alive = false) :
    convictFuel n e s p = (s, []) := by
  cases n with
  | zero => rfl
  | succ n =>
    rcases h with h | ⟨st, hst, hal⟩
    · simp [convictFuel, h]
    · simp [convictFuel, hst, hal]

theorem lookup_markDead (e : Env) (s : GState) (addr : Addr) :
    lookupEp (markDead e s addr).1.epStateMap addr
      = (lookupEp s.epStateMap addr).map (fun st => { st with alive := false }) :=
  assocLookup_modify_self s.epStateMap addr (fun st => { st with alive := false })

theorem markDead_trace (e : Env) (s : GState) (addr : Addr) :
    (markDead e s addr).2 = [Ev.touch addr, Ev.notify NotifyKind.onDead addr] := rfl

theorem markAsShutdownFuel_spec (n : Nat) (e : Env) (s : GState) (p : Addr)
    (st : EndpointState) (hst : lookupEp s.epStateMap p = some st) :
    (markAsShutdownFuel (n + 2) e s p).2
        = [Ev.mutateState p, Ev.mutateState p, Ev.fanout p, Ev.touch p,
           Ev.notify NotifyKind.onDead p] ∧
      ∃ st', lookupEp (markAsShutdownFuel (n + 2) e s p).1.epStateMap p = some st' ∧
        st'.alive = false := by
  have hunfold : markAsShutdownFuel (n + 2) e s p = markAsShutdownFuel (Nat.succ (n + 1)) e s p :=
    rfl
  rw [hunfold]
  simp only [markAsShutdownFuel, hst]
  set f0 : EndpointState → EndpointState := fun st =>
    let st1 := st.addApp AppState.STATUS (shutdownValue (s.versionGen + 1))
    { st1 with hb := { st1.hb with version := INT32_MAX } } with hf0
  set s1 : GState := { s with epStateMap := assocModify s.epStateMap p f0,
                              versionGen := s.versionGen + 1 } with hs1
  have h1 : lookupEp s1.epStateMap p = some (f0 st) := by
    rw [hs1]
    show assocLookup (assocModify s.epStateMap p f0) p = some (f0 st)
    rw [assocLookup_modify_self, show assocLookup s.epStateMap p = some st from hst]
    rfl
  have h2 : lookupEp (markDead e s1 p).1.epStateMap p = some { f0 st with alive := false } := by
    rw [lookup_markDead, h1]
    rfl
  have h3 : convictFuel (n + 1) e (markDead e s1 p).1 p = ((markDead e s1 p).1, []) :=
    convictFuel_noop_of_dead (n + 1) e (markDead e s1 p).1 p
      (Or.inr ⟨{ f0 st with alive := false }, h2, rfl⟩)
  rw [h3]
  exact ⟨rfl, { f0 st with alive := false }, h2, rfl⟩

/-- C10.  `convict(p)` leaves the gossiper state unchanged and fires no
subscriber callbacks when p is unknown or already not alive; on any state a
second consecutive `convict(p)` has no effect and no events, and a single
`convict(p)` fires `on_dead` at most once — so `on_dead` fires at most once
per transition of a peer from alive to down. -/
theorem convict_frame_and_once (e : Env) (s : GState) (p : Addr) :
    ((lookupEp s.epStateMap p = none ∨
        ∃ st, lookupEp s.epStateMap p = some st ∧ st.alive = false) →
      convict e s p = (s, [])) ∧
    (convict e (convict e s p).1 p).2 = [] ∧
    (convict e s p).2.count (Ev.notify NotifyKind.onDead p) ≤ 1 := by
  refine ⟨convictFuel_noop_of_dead 3 e s p, ?_⟩
  match hl : lookupEp s.epStateMap p with
  | none =>
    have h0 : convict e s p = (s, []) := convictFuel_noop_of_dead 3 e s p (Or.inl hl)
    rw [h0]
    exact ⟨by rw [h0], by simp⟩
  | some st =>
    by_cases hal : st.alive = true
    · by_cases hsh : getGossipStatus st = SHUTDOWN
      · have hconv : convict e s p = markAsShutdownFuel 2 e s p := by
          simp [convict, convictFuel, hl, hal, hsh]
        obtain ⟨htr, st', hl', hal'⟩ := markAsShutdownFuel_spec 0 e s p st hl
        constructor
        · rw [hconv]
          have hx := convictFuel_noop_of_dead 3 e (markAsShutdownFuel (0 + 2) e s p).1 p
            (Or.inr ⟨st', hl', hal'⟩)
          rw [convict]
          exact congrArg Prod.snd hx
        · rw [hconv]
          rw [show markAsShutdownFuel 2 e s p = markAsShutdownFuel (0 + 2) e s p from rfl, htr]
          simp [List.count_cons]
      · have hconv : convict e s p = markDead e s p := by
          simp [convict, convictFuel, hl, hal, hsh]
        have h2 : lookupEp (markDead e s p).1.epStateMap p = some { st with alive := false } := by
          rw [lookup_markDead, hl]
          rfl
        constructor
        · rw [hconv]
          have hx := convictFuel_noop_of_dead 3 e (markDead e s p).1 p
            (Or.inr ⟨{ st with alive := false }, h2, rfl⟩)
          rw [convict]
          exact congrArg Prod.snd hx
        · rw [hconv, markDead_trace]
          simp [List.count_cons]
    · have hfalse : st.alive = false := by
        cases h : st.alive
        · rfl
        · exact absurd h hal
      have h0 : convict e s p = (s, []) :=
        convictFuel_noop_of_dead 3 e s p (Or.inr ⟨st, hl, hfalse⟩)
      rw [h0]
      exact ⟨by rw [h0], by simp⟩

/-- C10 witness: convicting an unknown endpoint changes nothing. -/
theorem convict_frame_and_once_witness :
    convict envA gs0 7 = (gs0, []) :=
  (convict_frame_and_once envA gs0 7).1 (Or.inl rfl)

/-- An endpoint state whose STATUS is the dead state LEFT (and which is
currently down). -/
def esLeft : EndpointState :=
  EndpointState.mk (HeartBeatState.mk 100 1)
    [(AppState.STATUS, VersionedValue.mk "LEFT" 2)] false 0

/-- An endpoint state whose STATUS is SHUTDOWN (and which is down). -/
def esShutdown : EndpointState :=
  EndpointState.mk (HeartBeatState.mk 100 1)
    [(AppState.STATUS, VersionedValue.mk "SHUTDOWN,true" 2)] false 0

/-- A state holding the own entry, a LEFT peer 7 with a mark-alive echo in
flight, and nothing else. -/
def gsLeftPending : GState :=
  { gs0 with epStateMap := [(0, esSelf), (7, esLeft)], pendingMarkAlive := [7] }

/-- A state holding the own entry and a SHUTDOWN peer 7. -/
def gsShut : GState :=
  { gs0 with epStateMap := [(0, esSelf), (7, esShutdown)] }

/-- C6 counterexample.  `real_mark_alive` refuses only SHUTDOWN, not the dead
states: when peer 7's STATUS changed to LEFT while its mark-alive echo was in
flight, the echo-reply continuation transitions the dead-state endpoint to
alive. -/
theorem dead_state_marked_alive_cex :
    isDeadState esLeft = true ∧ esLeft.alive = false ∧
      (lookupEp (onEchoReply envA gsLeftPending 7).1.epStateMap 7).map EndpointState.alive
        = some true := by
  refine ⟨by decide, by decide, by decide⟩

theorem dead_ne_shutdown (x : String) (h : DEAD_STATES.contains x = true) :
    ¬ x = SHUTDOWN := by
  have hx : x = REMOVING_TOKEN ∨ x = REMOVED_TOKEN ∨ x = STATUS_LEFT := by
    simpa [DEAD_STATES, List.contains, or_assoc] using h
  rcases hx with rfl | rfl | rfl <;> decide

/-- C6 (amended).  `real_mark_alive` returns without marking alive when the
STATUS is SHUTDOWN; the first phase of the handshake (`mark_alive`) never
raises any alive bit; and `handle_major_state_change` marks dead-state
endpoints dead instead of starting the mark-alive handshake, leaving the
entry not alive.  The guard of `real_mark_alive` checks only SHUTDOWN, so an
endpoint whose STATUS turns into one of the dead states {LEFT, REMOVED_TOKEN,
REMOVING_TOKEN} between the echo send and its reply is marked alive by the
echo continuation. -/
theorem dead_states_never_marked_alive (e : Env) (s : GState) (addr p ep : Addr)
    (eps : EndpointState) :
    (∀ st, lookupEp s.epStateMap addr = some st → getGossipStatus st = SHUTDOWN →
      realMarkAlive e s addr = (s, [])) ∧
    ((lookupEp s.epStateMap e.broadcast).isSome = true →
      (lookupEp (markAlive e s addr).1.epStateMap p).map EndpointState.alive = some true →
      (lookupEp s.epStateMap p).map EndpointState.alive = some true) ∧
    (e.shadow = false → isDeadState eps = true →
      (lookupEp (handleMajorStateChange e s ep eps).1.epStateMap ep).map EndpointState.alive
        = some false) := by
  refine ⟨?_, ?_, ?_⟩
  · intro st hst hsh
    simp only [realMarkAlive, hst]
    rw [if_pos (show getGossipStatus ((some st).getD (freshEndpointState ⟨0, 0⟩))
        = SHUTDOWN from hsh)]
  · intro hb hafter
    by_cases hp : s.pendingMarkAlive.contains addr = true
    · rw [markAlive, if_pos hp] at hafter
      exact hafter
    · have hb2 : (lookupEp (assocModify s.epStateMap addr
          (fun st => { st with alive := false })) e.broadcast).isSome = true := by
        rw [lookup_modify_isSome]
        exact hb
      rw [markAlive, if_neg hp, if_pos hb2] at hafter
      by_cases hpa : p = addr
      · subst hpa
        rw [show lookupEp (assocModify s.epStateMap p
              (fun st => { st with alive := false })) p
            = (lookupEp s.epStateMap p).map (fun st => { st with alive := false }) from
            assocLookup_modify_self _ _ _] at hafter
        cases hlp : lookupEp s.epStateMap p with
        | none => rw [hlp] at hafter; exact absurd hafter (by simp)
        | some st =>
          rw [hlp] at hafter
          exact absurd hafter (by simp)
      · rw [show lookupEp (assocModify s.epStateMap addr
              (fun st => { st with alive := false })) p
            = lookupEp s.epStateMap p from
            assocLookup_modify_ne _ _ _ _ hpa] at hafter
        exact hafter
  · intro hshadow hdead
    have hepState : (lookupEp (assocInsert s.epStateMap ep eps) ep).getD eps = eps := by
      rw [lookupEp, assocLookup_insert_self]
      rfl
    have hlook : lookupEp (markDead e
        { s with epStateMap := assocInsert s.epStateMap ep eps } ep).1.epStateMap ep
        = some { eps with alive := false } := by
      rw [lookup_markDead]
      rw [show lookupEp (assocInsert s.epStateMap ep eps) ep = some eps from
        assocLookup_insert_self _ _ _]
      rfl
    have hcur : (some { eps with alive := false } : Option EndpointState).bind
        (fun st => st.getApp AppState.STATUS) = eps.getApp AppState.STATUS := rfl
    have hnsh : (doGetGossipStatus (eps.getApp AppState.STATUS) = SHUTDOWN) = False :=
      eq_false (dead_ne_shutdown (getGossipStatus eps) hdead)
    rw [handleMajorStateChange, if_neg (by simp [hshadow])]
    simp only [hepState, hdead, Bool.not_true, Bool.false_eq_true, if_false, hlook,
      hcur, hnsh]
    rfl

/-- C6 witness: the three provable guards at concrete states — SHUTDOWN peer
7 is not marked alive by `real_mark_alive`; the own entry stays alive through
`mark_alive`'s first phase; installing a LEFT state for peer 9 through
`handle_major_state_change` leaves it not alive. -/
theorem dead_states_never_marked_alive_witness :
    realMarkAlive envA gsShut 7 = (gsShut, []) ∧
      (lookupEp gsShut.epStateMap 0).map EndpointState.alive = some true ∧
      (lookupEp (handleMajorStateChange envA gsShut 9 esLeft).1.epStateMap 9).map
          EndpointState.alive = some false :=
  ⟨(dead_states_never_marked_alive envA gsShut 7 0 9 esLeft).1 esShutdown
      (by decide) (by decide),
   (dead_states_never_marked_alive envA gsShut 7 0 9 esLeft).2.1
      (by decide) (by decide),
   (dead_states_never_marked_alive envA gsShut 7 0 9 esLeft).2.2 rfl (by decide)⟩

/-- Frame relation used for the quarantine and replication claims: going
from `s` to `s'`, the quarantine table is untouched, no endpoint-state-map
entry disappears, and every entry other than `a`'s is untouched. -/
def frameTo (a : Addr) (s s' : GState) : Prop :=
  s'.justRemovedEndpoints = s.justRemovedEndpoints ∧
  (∀ b, (lookupEp s.epStateMap b).isSome = true →
    (lookupEp s'.epStateMap b).isSome = true) ∧
  (∀ p, p ≠ a → lookupEp s'.epStateMap p = lookupEp s.epStateMap p)

theorem frameTo_refl (a : Addr) (s : GState) : frameTo a s s :=
  ⟨rfl, fun _ h => h, fun _ _ => rfl⟩

theorem frameTo_trans (a : Addr) (s s' s'' : GState)
    (h1 : frameTo a s s') (h2 : frameTo a s' s'') : frameTo a s s'' :=
  ⟨h2.1.trans h1.1, fun b hb => h2.2.1 b (h1.2.1 b hb),
   fun p hp => (h2.2.2 p hp).trans (h1.2.2 p hp)⟩

theorem frameTo_of_modify (a : Addr) (s : GState) (f : EndpointState → EndpointState)
    (s' : GState) (hmap : s'.epStateMap = assocModify s.epStateMap a f)
    (hjr : s'.justRemovedEndpoints = s.justRemovedEndpoints) : frameTo a s s' := by
  refine ⟨hjr, ?_, ?_⟩
  · intro b hb
    rw [hmap, lookup_modify_isSome]
    exact hb
  · intro p hp
    rw [hmap]
    exact assocLookup_modify_ne _ _ _ _ hp

theorem lookup_insert_isSome (m : EpMap) (a b : Addr) (v : EndpointState)
    (h : (lookupEp m b).isSome = true) :
    (lookupEp (assocInsert m a v) b).isSome = true := by
  by_cases hb : b = a
  · subst hb
    rw [lookupEp, assocLookup_insert_self]
    rfl
  · rw [lookupEp, assocLookup_insert_ne _ _ _ _ hb]
    exact h

theorem markDead_frameTo (e : Env) (s : GState) (addr : Addr) :
    frameTo addr s (markDead e s addr).1 :=
  frameTo_of_modify addr s (fun st => { st with alive := false }) _ rfl rfl

theorem markAlive_frameTo (e : Env) (s : GState) (addr : Addr)
    (hb : (lookupEp s.epStateMap e.broadcast).isSome = true) :
    frameTo addr s (markAlive e s addr).1 := by
  by_cases hp : s.pendingMarkAlive.contains addr = true
  · rw [markAlive, if_pos hp]
    exact frameTo_refl addr s
  · have hb2 : (lookupEp (assocModify s.epStateMap addr
        (fun st => { st with alive := false })) e.broadcast).isSome = true := by
      rw [lookup_modify_isSome]
      exact hb
    rw [markAlive, if_neg hp, if_pos hb2]
    exact frameTo_of_modify addr s (fun st => { st with alive := false }) _ rfl rfl

theorem applyNewStatesStep_frameTo (addr : Addr) (rg : Int)
    (acc : GState × List AppState × List Ev × Bool) (kv : AppState × VersionedValue) :
    frameTo addr acc.1 (applyNewStatesStep addr rg acc kv).1 := by
  rcases acc with ⟨st, changed, evs, exc⟩
  rw [applyNewStatesStep]
  by_cases hexc : exc = true
  · rw [if_pos hexc]
    exact frameTo_refl addr st
  · rw [if_neg hexc]
    simp only []
    split
    · exact frameTo_refl addr st
    · split
      · exact frameTo_of_modify addr st (fun les => les.addApp kv.1 kv.2) _ rfl rfl
      · exact frameTo_refl addr st

theorem applyNewStatesFold_frameTo (addr : Addr) (rg : Int) :
    ∀ (apps : List (AppState × VersionedValue))
      (acc : GState × List AppState × List Ev × Bool),
      frameTo addr acc.1 ((apps.foldl (applyNewStatesStep addr rg) acc)).1
  | [], acc => frameTo_refl addr acc.1
  | kv :: rest, acc => by
    rw [List.foldl_cons]
    exact frameTo_trans addr _ _ _ (applyNewStatesStep_frameTo addr rg acc kv)
      (applyNewStatesFold_frameTo addr rg rest (applyNewStatesStep addr rg acc kv))

theorem applyNewStates_frameTo (e : Env) (s : GState) (addr : Addr)
    (remote : EndpointState) :
    frameTo addr s (applyNewStates e s addr remote).1 := by
  rw [applyNewStates]
  simp only []
  set m1 := assocModify s.epStateMap addr
    (fun st => { st with hb := remote.hb, updateTs := e.now }) with hm1
  set s1 : GState := { s with epStateMap := m1 } with hs1
  have h1 : frameTo addr s s1 :=
    frameTo_of_modify addr s (fun st => { st with hb := remote.hb, updateTs := e.now }) s1
      (by rw [hs1]) (by rw [hs1])
  exact frameTo_trans addr s s1 _ h1
    (applyNewStatesFold_frameTo addr remote.hb.generation remote.apps
      (s1, ([] : List AppState), ([] : List Ev), false))

theorem cmsFuel_frameTo :
    ∀ (n : Nat) (e : Env) (s : GState) (a : Addr),
      frameTo a s (convictFuel n e s a).1 ∧ frameTo a s (markAsShutdownFuel n e s a).1
  | 0, e, s, a => ⟨frameTo_refl a s, frameTo_refl a s⟩
  | Nat.succ n, e, s, a => by
    constructor
    · cases hl : lookupEp s.epStateMap a with
      | none =>
        simp only [convictFuel, hl]
        exact frameTo_refl a s
      | some st =>
        cases hal : st.alive with
        | false =>
          simp only [convictFuel, hl, hal, Bool.not_false, if_true]
          exact frameTo_refl a s
        | true =>
          by_cases hsh : getGossipStatus st = SHUTDOWN
          · simp only [convictFuel, hl, hal, Bool.not_true, Bool.false_eq_true,
              if_false, if_pos hsh]
            exact (cmsFuel_frameTo n e s a).2
          · simp only [convictFuel, hl, hal, Bool.not_true, Bool.false_eq_true,
              if_false, if_neg hsh]
            exact markDead_frameTo e s a
    · cases hl : lookupEp s.epStateMap a with
      | none =>
        simp only [markAsShutdownFuel, hl]
        exact frameTo_refl a s
      | some st =>
        simp only [markAsShutdownFuel, hl]
        set f0 : EndpointState → EndpointState := fun st =>
          let st1 := st.addApp AppState.STATUS (shutdownValue (s.versionGen + 1))
          { st1 with hb := { st1.hb with version := INT32_MAX } } with hf0
        set m1 := assocModify s.epStateMap a f0 with hm1
        set s1 : GState := { s with epStateMap := m1, versionGen := s.versionGen + 1 } with hs1
        have h1 : frameTo a s s1 :=
          frameTo_of_modify a s f0 s1 (by rw [hs1]) (by rw [hs1])
        have h2 : frameTo a s1 (markDead e s1 a).1 := markDead_frameTo e s1 a
        have h3 : frameTo a (markDead e s1 a).1
            (convictFuel n e (markDead e s1 a).1 a).1 :=
          (cmsFuel_frameTo n e (markDead e s1 a).1 a).1
        exact frameTo_trans a _ _ _ h1 (frameTo_trans a _ _ _ h2 h3)

theorem handleMajor_frameTo (e : Env) (s : GState) (ep : Addr) (eps : EndpointState)
    (hb : (lookupEp s.epStateMap e.broadcast).isSome = true) :
    frameTo ep s (handleMajorStateChange e s ep eps).1 := by
  have hins : frameTo ep s { s with epStateMap := assocInsert s.epStateMap ep eps } := by
    refine ⟨rfl, ?_, ?_⟩
    · intro b hbb
      exact lookup_insert_isSome _ _ _ _ hbb
    · intro p hp
      exact assocLookup_insert_ne _ _ _ _ hp
  rw [handleMajorStateChange]
  by_cases hs : e.shadow = true
  · rw [if_pos hs]
    exact hins
  · rw [if_neg hs]
    simp only []
    set s1 : GState := { s with epStateMap := assocInsert s.epStateMap ep eps } with hs1
    have hb1 : (lookupEp s1.epStateMap e.broadcast).isSome = true := hins.2.1 _ hb
    refine frameTo_trans ep _ _ _ hins ?_
    set r3 := if (!isDeadState ((lookupEp s1.epStateMap ep).getD eps)) = true
      then markAlive e s1 ep else markDead e s1 ep with hr3
    have h3 : frameTo ep s1 r3.1 := by
      rw [hr3]
      split
      · exact markAlive_frameTo e s1 ep hb1
      · exact markDead_frameTo e s1 ep
    refine frameTo_trans ep _ _ _ h3 ?_
    split
    · exact (cmsFuel_frameTo 3 e r3.1 ep).2
    · exact frameTo_refl ep r3.1

theorem doApply_frameTo (e : Env) (s : GState) (node : Addr)
    (rs : EndpointState)
    (hb : (lookupEp s.epStateMap e.broadcast).isSome = true) :
    frameTo node s (doApplyStateLocally e s node rs true).1 := by
  cases hl : lookupEp s.epStateMap node with
  | none =>
    simp only [doApplyStateLocally, hl, eq_self_iff_true, if_true]
    exact handleMajor_frameTo e s node rs hb
  | some localState =>
    by_cases hcor : e.genNow + MAX_GENERATION_DIFFERENCE < rs.hb.generation
    · simp only [doApplyStateLocally, hl, if_pos hcor]
      exact frameTo_refl node s
    · by_cases hmaj : localState.hb.generation < rs.hb.generation
      · simp only [doApplyStateLocally, hl, if_neg hcor, if_pos hmaj,
          eq_self_iff_true, if_true]
        exact handleMajor_frameTo e s node rs hb
      · by_cases heq : rs.hb.generation = localState.hb.generation
        · simp only [doApplyStateLocally, hl, if_neg hcor, if_neg hmaj, if_pos heq,
            eq_self_iff_true, if_true]
          set r1 := if maxEndpointStateVersion localState < maxEndpointStateVersion rs
            then applyNewStates e s node rs else (s, ([] : List Ev)) with hr1
          have h1 : frameTo node s r1.1 := by
            rw [hr1]
            by_cases hv : maxEndpointStateVersion localState < maxEndpointStateVersion rs
            · rw [if_pos hv]
              exact applyNewStates_frameTo e s node rs
            · rw [if_neg hv]
              exact frameTo_refl node s
          have hb1 : (lookupEp r1.1.epStateMap e.broadcast).isSome = true := h1.2.1 _ hb
          by_cases hma : (!((lookupEp r1.1.epStateMap node).getD localState).alive
              && !isDeadState ((lookupEp r1.1.epStateMap node).getD localState)) = true
          · rw [if_pos hma]
            exact frameTo_trans node _ _ _ h1 (markAlive_frameTo e r1.1 node hb1)
          · rw [if_neg hma]
            exact h1
        · simp only [doApplyStateLocally, hl, if_neg hcor, if_neg hmaj, if_neg heq]
          exact frameTo_refl node s

theorem applyStateLocally_go (e : Env) (p : Addr) (t : Time) (incoming : EpMap) :
    ∀ (order : List Addr) (acc : GState × List Ev),
      assocLookup acc.1.justRemovedEndpoints p = some t →
      (lookupEp acc.1.epStateMap e.broadcast).isSome = true →
      lookupEp (order.foldl
        (fun (acc : GState × List Ev) ep =>
          if ep == e.broadcast && !e.shadow then acc
          else if (assocLookup acc.1.justRemovedEndpoints ep).isSome then acc
          else
            let r := doApplyStateLocally e acc.1 ep
              ((lookupEp incoming ep).getD (freshEndpointState ⟨0, 0⟩)) true
            (r.1, acc.2 ++ r.2)) acc).1.epStateMap p
        = lookupEp acc.1.epStateMap p
  | [], acc, _, _ => rfl
  | ep :: rest, acc, hq, hb => by
    rw [List.foldl_cons]
    by_cases hself : (ep == e.broadcast && !e.shadow) = true
    · rw [if_pos hself]
      exact applyStateLocally_go e p t incoming rest acc hq hb
    · rw [if_neg hself]
      by_cases hquar : (assocLookup acc.1.justRemovedEndpoints ep).isSome = true
      · rw [if_pos hquar]
        exact applyStateLocally_go e p t incoming rest acc hq hb
      · rw [if_neg hquar]
        have hpep : p ≠ ep := by
          intro hh
          subst hh
          rw [hq] at hquar
          exact hquar rfl
        have hframe := doApply_frameTo e acc.1 ep
          ((lookupEp incoming ep).getD (freshEndpointState ⟨0, 0⟩)) hb
        have hrec := applyStateLocally_go e p t incoming rest
          ((doApplyStateLocally e acc.1 ep
              ((lookupEp incoming ep).getD (freshEndpointState ⟨0, 0⟩)) true).1,
            acc.2 ++ (doApplyStateLocally e acc.1 ep
              ((lookupEp incoming ep).getD (freshEndpointState ⟨0, 0⟩)) true).2)
          (by rw [show ((doApplyStateLocally e acc.1 ep
              ((lookupEp incoming ep).getD (freshEndpointState ⟨0, 0⟩))
              true).1.justRemovedEndpoints) = acc.1.justRemovedEndpoints from hframe.1]
              exact hq)
          (hframe.2.1 _ hb)
        rw [hrec]
        exact hframe.2.2 p hpep

theorem removeEndpoint_justRemoved (e : Env) (st : GState) (a : Addr) :
    (removeEndpoint e st a).1.justRemovedEndpoints
      = assocInsert st.justRemovedEndpoints a e.now := by
  rw [removeEndpoint]
  simp only [quarantineEndpoint]
  split <;> rfl

theorem evictFromMembership_justRemoved (e : Env) (st : GState) (a : Addr) :
    (evictFromMembership e st a).1.justRemovedEndpoints
      = assocInsert st.justRemovedEndpoints a e.now := rfl

theorem quarInsertPreserve (J : List (Addr × Time)) (a p : Addr) (t now' : Time)
    (h : assocLookup J p = some t ∨ assocLookup J p = some now') :
    assocLookup (assocInsert J a now') p = some t ∨
      assocLookup (assocInsert J a now') p = some now' := by
  by_cases hp : p = a
  · subst hp
    right
    exact assocLookup_insert_self _ _ _
  · rw [assocLookup_insert_ne _ _ _ _ hp]
    exact h

theorem doStatusCheckStep_quarantine (e : Env) (acc : GState × List Ev)
    (kv : Addr × EndpointState) (p : Addr) (t : Time)
    (h : assocLookup acc.1.justRemovedEndpoints p = some t ∨
      assocLookup acc.1.justRemovedEndpoints p = some e.now) :
    assocLookup (doStatusCheckStep e acc kv).1.justRemovedEndpoints p = some t ∨
      assocLookup (doStatusCheckStep e acc kv).1.justRemovedEndpoints p = some e.now := by
  rcases acc with ⟨st, evs⟩
  rw [doStatusCheckStep]
  by_cases hbc : (kv.1 == e.broadcast) = true
  · rw [if_pos hbc]
    exact h
  · rw [if_neg hbc]
    simp only []
    set r1 := if isGossipOnlyMember e st kv.1
        && !(assocLookup st.justRemovedEndpoints kv.1).isSome
        && decide (fatClientTimeoutMs e < e.now - kv.2.updateTs) then
        ((evictFromMembership e (removeEndpoint e st kv.1).1 kv.1).1,
          (removeEndpoint e st kv.1).2 ++ (evictFromMembership e (removeEndpoint e st kv.1).1 kv.1).2)
      else (st, ([] : List Ev)) with hr1
    have h1 : assocLookup r1.1.justRemovedEndpoints p = some t ∨
        assocLookup r1.1.justRemovedEndpoints p = some e.now := by
      rw [hr1]
      split
      · rw [evictFromMembership_justRemoved, removeEndpoint_justRemoved]
        exact quarInsertPreserve _ _ _ _ _ (quarInsertPreserve _ _ _ _ _ h)
      · exact h
    split
    · rw [evictFromMembership_justRemoved]
      exact quarInsertPreserve _ _ _ _ _ h1
    · exact h1

theorem statusCheckFold_quarantine (e : Env) (p : Addr) (t : Time) :
    ∀ (entries : List (Addr × EndpointState)) (acc : GState × List Ev),
      (assocLookup acc.1.justRemovedEndpoints p = some t ∨
        assocLookup acc.1.justRemovedEndpoints p = some e.now) →
      (assocLookup (entries.foldl (doStatusCheckStep e) acc).1.justRemovedEndpoints p
          = some t ∨
        assocLookup (entries.foldl (doStatusCheckStep e) acc).1.justRemovedEndpoints p
          = some e.now)
  | [], acc, h => h
  | kv :: rest, acc, h => by
    rw [List.foldl_cons]
    exact statusCheckFold_quarantine e p t rest (doStatusCheckStep e acc kv)
      (doStatusCheckStep_quarantine e acc kv p t h)

theorem assocLookup_filter_keep {α β : Type} [DecidableEq α]
    (l : List (α × β)) (f : α × β → Bool) (k : α) (v : β)
    (h : assocLookup l k = some v) (hf : f (k, v) = true) :
    assocLookup (l.filter f) k = some v := by
  induction l with
  | nil => exact absurd h (by simp [assocLookup])
  | cons kv rest ih =>
    rcases kv with ⟨a, b⟩
    rw [assocLookup_cons] at h
    by_cases ha : a = k
    · rw [if_pos ha] at h
      injection h with hv
      subst ha
      subst hv
      rw [List.filter_cons, if_pos hf]
      rw [assocLookup_cons, if_pos rfl]
    · rw [if_neg ha] at h
      rw [List.filter_cons]
      by_cases hf2 : f (a, b) = true
      · rw [if_pos hf2, assocLookup_cons, if_neg ha]
        exact ih h
      · rw [if_neg hf2]
        exact ih h

/-- C2.  A peer p present in `just_removed_endpoints` receives no update to
`endpoint_state_map[p]` from applying incoming gossip state; the quarantine
delay is `2 * max(30000 ms, ring_delay_ms)`; and an entry whose quarantine
timestamp t still satisfies `now − t ≤ quarantine_delay` survives
`do_status_check` (entries are erased only once more than the delay has
elapsed). -/
theorem quarantined_not_updated_and_persists (e : Env) (s : GState) (p : Addr)
    (t : Time) (order : List Addr) (incoming : EpMap)
    (hq : assocLookup s.justRemovedEndpoints p = some t)
    (hb : (lookupEp s.epStateMap e.broadcast).isSome = true) :
    lookupEp (applyStateLocally e s order incoming).1.epStateMap p
        = lookupEp s.epStateMap p ∧
      quarantineDelayMs e = 2 * max 30000 e.ringDelayMs ∧
      (e.now - t ≤ quarantineDelayMs e →
        (assocLookup (doStatusCheck e s).1.justRemovedEndpoints p).isSome = true) := by
  refine ⟨?_, rfl, ?_⟩
  · exact applyStateLocally_go e p t incoming order (s, []) hq hb
  · intro hle
    have hdelay : (0 : Int) ≤ quarantineDelayMs e := by
      have h30 : (30000 : Int) ≤ max 30000 e.ringDelayMs := le_max_left _ _
      rw [quarantineDelayMs]
      omega
    have hfold := statusCheckFold_quarantine e p t
      s.epStateMap (s, []) (Or.inl hq)
    rw [doStatusCheck]
    rcases hfold with hcase | hcase
    · have hkeep : (fun kv : Addr × Time =>
          !decide (quarantineDelayMs e < e.now - kv.2)) (p, t) = true := by
        show (!decide (quarantineDelayMs e < e.now - t)) = true
        rw [decide_eq_false (not_lt.mpr hle)]
        rfl
      rw [show (assocLookup ((s.epStateMap.foldl (doStatusCheckStep e)
            (s, ([] : List Ev))).1.justRemovedEndpoints.filter
            (fun kv => !decide (quarantineDelayMs e < e.now - kv.2))) p)
          = some t from assocLookup_filter_keep _ _ p t hcase hkeep]
      rfl
    · have hkeep : (fun kv : Addr × Time =>
          !decide (quarantineDelayMs e < e.now - kv.2)) (p, e.now) = true := by
        show (!decide (quarantineDelayMs e < e.now - e.now)) = true
        have h0 : e.now - e.now ≤ quarantineDelayMs e := by
          rw [sub_self]
          exact hdelay
        rw [decide_eq_false (not_lt.mpr h0)]
        rfl
      rw [show (assocLookup ((s.epStateMap.foldl (doStatusCheckStep e)
            (s, ([] : List Ev))).1.justRemovedEndpoints.filter
            (fun kv => !decide (quarantineDelayMs e < e.now - kv.2))) p)
          = some e.now from assocLookup_filter_keep _ _ p e.now hcase hkeep]
      rfl

/-- C2 witness: under `envA` (ring delay 30000 ms) a peer quarantined 50000 ms
ago is still skipped by the apply path and survives the status check
(quarantine delay is 60000 ms). -/
theorem quarantined_not_updated_and_persists_witness :
    lookupEp (applyStateLocally envA
        { gs0 with epStateMap := [(0, esSelf)], justRemovedEndpoints := [(5, 50000)] }
        [5] [(5, esNormal)]).1.epStateMap 5
      = lookupEp ([(0, esSelf)] : EpMap) 5 ∧
      quarantineDelayMs envA = 2 * max 30000 envA.ringDelayMs ∧
      (envA.now - 50000 ≤ quarantineDelayMs envA →
        (assocLookup (doStatusCheck envA
          { gs0 with epStateMap := [(0, esSelf)], justRemovedEndpoints := [(5, 50000)] }
          ).1.justRemovedEndpoints 5).isSome = true) :=
  quarantined_not_updated_and_persists envA
    { gs0 with epStateMap := [(0, esSelf)], justRemovedEndpoints := [(5, 50000)] }
    5 50000 [5] [(5, esNormal)] (by decide) (by decide)

theorem fanoutCovered_append (sel : Ev → Option Addr) :
    ∀ (a b : List Ev), fanoutCovered sel a = true → fanoutCovered sel b = true →
      fanoutCovered sel (a ++ b) = true
  | [], b, _, hb => hb
  | ev :: rest, b, ha, hb => by
    rw [List.cons_append, fanoutCovered]
    rw [fanoutCovered, Bool.and_eq_true] at ha
    rcases ha with ⟨h1, h2⟩
    rw [Bool.and_eq_true]
    refine ⟨?_, fanoutCovered_append sel rest b h2 hb⟩
    cases hsel : sel ev with
    | none => rfl
    | some ep =>
      rw [hsel] at h1
      exact List.elem_eq_true_of_mem
        (List.mem_append_left _ (List.mem_of_elem_eq_true h1))

theorem fanoutCovered_of_no_mut (sel : Ev → Option Addr) :
    ∀ (a : List Ev), (∀ ev ∈ a, sel ev = none) → fanoutCovered sel a = true
  | [], _ => rfl
  | ev :: rest, h => by
    rw [fanoutCovered, h ev (by simp)]
    exact fanoutCovered_of_no_mut sel rest (fun x hx => h x (by simp [hx]))

theorem fanoutCovered_of_muts_before (sel : Ev → Option Addr) (ep : Addr) :
    ∀ (a b : List Ev), (∀ ev ∈ a, sel ev = none ∨ sel ev = some ep) →
      Ev.fanout ep ∈ b → fanoutCovered sel b = true →
      fanoutCovered sel (a ++ b) = true
  | [], b, _, _, hb => hb
  | ev :: rest, b, ha, hfan, hb => by
    rw [List.cons_append, fanoutCovered, Bool.and_eq_true]
    refine ⟨?_, fanoutCovered_of_muts_before sel ep rest b
      (fun x hx => ha x (by simp [hx])) hfan hb⟩
    rcases ha ev (by simp) with h | h
    · rw [h]
    · rw [h]
      exact List.elem_eq_true_of_mem
        (List.mem_append_right _ hfan)

theorem markDead_no_mut (e : Env) (s : GState) (addr : Addr) :
    ∀ ev ∈ (markDead e s addr).2, mutAddrContent ev = none := by
  intro ev hev
  rcases List.mem_cons.mp hev with rfl | hev'
  · rfl
  · rcases List.mem_cons.mp hev' with rfl | hev''
    · rfl
    · exact absurd hev'' (by simp)

theorem markAlive_no_mut (e : Env) (s : GState) (addr : Addr)
    (hb : (lookupEp s.epStateMap e.broadcast).isSome = true) :
    ∀ ev ∈ (markAlive e s addr).2, mutAddrContent ev = none := by
  intro ev hev
  by_cases hp : s.pendingMarkAlive.contains addr = true
  · rw [markAlive, if_pos hp] at hev
    exact absurd hev (by simp)
  · have hb2 : (lookupEp (assocModify s.epStateMap addr
        (fun st => { st with alive := false })) e.broadcast).isSome = true := by
      rw [lookup_modify_isSome]
      exact hb
    rw [markAlive, if_neg hp, if_pos hb2] at hev
    rcases List.mem_cons.mp hev with rfl | hev'
    · rfl
    · rcases List.mem_cons.mp hev' with rfl | hev''
      · rfl
      · exact absurd hev'' (by simp)

theorem applyNewStatesFold_evs (addr : Addr) (rg : Int) :
    ∀ (apps : List (AppState × VersionedValue))
      (acc : GState × List AppState × List Ev × Bool),
      (∀ ev ∈ acc.2.2.1, ev = Ev.mutateState addr) →
      ∀ ev ∈ (apps.foldl (applyNewStatesStep addr rg) acc).2.2.1,
        ev = Ev.mutateState addr
  | [], acc, h => h
  | kv :: rest, acc, h => by
    rw [List.foldl_cons]
    refine applyNewStatesFold_evs addr rg rest (applyNewStatesStep addr rg acc kv) ?_
    rcases acc with ⟨st, changed, evs, exc⟩
    rw [applyNewStatesStep]
    by_cases hexc : exc = true
    · rw [if_pos hexc]
      exact h
    · rw [if_neg hexc]
      simp only []
      split
      · exact h
      · split
        · intro ev hev
          rcases List.mem_append.mp hev with hl | hr
          · exact h ev hl
          · have : ev = Ev.mutateState addr := by simpa using hr
            exact this
        · exact h

theorem applyNewStates_covered (e : Env) (s : GState) (addr : Addr)
    (remote : EndpointState) :
    fanoutCovered mutAddrContent (applyNewStates e s addr remote).2 = true := by
  rw [applyNewStates]
  simp only []
  rw [List.append_assoc]
  set acc0 : GState × List AppState × List Ev × Bool :=
    ({ s with epStateMap := assocModify s.epStateMap addr (fun st => { st with hb := remote.hb, updateTs := e.now }) },
      ([] : List AppState), ([] : List Ev), false) with hacc0
  set folded := remote.apps.foldl (applyNewStatesStep addr remote.hb.generation) acc0
    with hfolded
  refine fanoutCovered_of_muts_before mutAddrContent addr
    ([Ev.mutateState addr] ++ folded.2.2.1)
    ([Ev.fanout addr] ++ folded.2.1.map (fun _ => Ev.notify NotifyKind.onChange addr))
    ?_ (by simp) ?_
  · intro ev hev
    rcases List.mem_append.mp hev with hl | hr
    · have hev2 : ev = Ev.mutateState addr := by simpa using hl
      rw [hev2]
      exact Or.inr rfl
    · have hev2 : ev = Ev.mutateState addr :=
        applyNewStatesFold_evs addr remote.hb.generation remote.apps _ (by simp) ev hr
      rw [hev2]
      exact Or.inr rfl
  · refine fanoutCovered_of_no_mut mutAddrContent _ ?_
    intro ev hev
    rcases List.mem_append.mp hev with hl | hr
    · have : ev = Ev.fanout addr := by simpa using hl
      rw [this]
      rfl
    · rcases List.mem_map.mp hr with ⟨x, _, rfl⟩
      rfl

theorem cmsFuel_covered :
    ∀ (n : Nat) (e : Env) (s : GState) (a : Addr),
      fanoutCovered mutAddrContent (convictFuel n e s a).2 = true ∧
      fanoutCovered mutAddrContent (markAsShutdownFuel n e s a).2 = true
  | 0, e, s, a => ⟨rfl, rfl⟩
  | Nat.succ n, e, s, a => by
    constructor
    · cases hl : lookupEp s.epStateMap a with
      | none =>
        simp only [convictFuel, hl]
        rfl
      | some st =>
        cases hal : st.alive with
        | false =>
          simp only [convictFuel, hl, hal, Bool.not_false, if_true]
          rfl
        | true =>
          by_cases hsh : getGossipStatus st = SHUTDOWN
          · simp only [convictFuel, hl, hal, Bool.not_true, Bool.false_eq_true,
              if_false, if_pos hsh]
            exact (cmsFuel_covered n e s a).2
          · simp only [convictFuel, hl, hal, Bool.not_true, Bool.false_eq_true,
              if_false, if_neg hsh]
            exact fanoutCovered_of_no_mut mutAddrContent _ (markDead_no_mut e s a)
    · cases hl : lookupEp s.epStateMap a with
      | none =>
        simp only [markAsShutdownFuel, hl]
        rfl
      | some st =>
        simp only [markAsShutdownFuel, hl]
        set f0 : EndpointState → EndpointState := fun st =>
          let st1 := st.addApp AppState.STATUS (shutdownValue (s.versionGen + 1))
          { st1 with hb := { st1.hb with version := INT32_MAX } } with hf0
        set m1 := assocModify s.epStateMap a f0 with hm1
        set s1 : GState := { s with epStateMap := m1, versionGen := s.versionGen + 1 } with hs1
        refine fanoutCovered_of_muts_before mutAddrContent a
          [Ev.mutateState a, Ev.mutateState a]
          (Ev.fanout a :: ((markDead e s1 a).2 ++ (convictFuel n e (markDead e s1 a).1 a).2))
          ?_ (by simp) ?_
        · intro ev hev
          rcases List.mem_cons.mp hev with rfl | hev'
          · exact Or.inr rfl
          · rcases List.mem_cons.mp hev' with rfl | hev''
            · exact Or.inr rfl
            · exact absurd hev'' (by simp)
        · rw [show fanoutCovered mutAddrContent (Ev.fanout a ::
              ((markDead e s1 a).2 ++ (convictFuel n e (markDead e s1 a).1 a).2))
              = fanoutCovered mutAddrContent
                ((markDead e s1 a).2 ++ (convictFuel n e (markDead e s1 a).1 a).2)
            from by rw [fanoutCovered]; rfl]
          exact fanoutCovered_append mutAddrContent _ _
            (fanoutCovered_of_no_mut mutAddrContent _ (markDead_no_mut e s1 a))
            (cmsFuel_covered n e (markDead e s1 a).1 a).1

theorem fanoutCovered_mut_fanout (ep : Addr) (rest : List Ev)
    (hrest : fanoutCovered mutAddrContent rest = true) :
    fanoutCovered mutAddrContent (Ev.mutateState ep :: Ev.fanout ep :: rest) = true := by
  rw [fanoutCovered, Bool.and_eq_true]
  constructor
  · exact List.elem_eq_true_of_mem (List.mem_cons_self _ _)
  · rw [fanoutCovered, Bool.and_eq_true]
    exact ⟨rfl, hrest⟩

theorem handleMajor_covered (e : Env) (s : GState) (ep : Addr) (eps : EndpointState)
    (hb : (lookupEp s.epStateMap e.broadcast).isSome = true) :
    fanoutCovered mutAddrContent (handleMajorStateChange e s ep eps).2 = true := by
  rw [handleMajorStateChange]
  by_cases hs : e.shadow = true
  · rw [if_pos hs]
    exact fanoutCovered_mut_fanout ep [] rfl
  · rw [if_neg hs]
    simp only []
    set s1 : GState := { s with epStateMap := assocInsert s.epStateMap ep eps } with hs1
    have hb1 : (lookupEp s1.epStateMap e.broadcast).isSome = true := by
      rw [hs1]
      exact lookup_insert_isSome _ _ _ _ hb
    set ev2 := (match lookupEp s.epStateMap ep with
      | some _ => [Ev.notify NotifyKind.onRestart ep]
      | none => ([] : List Ev)) with hev2
    have hev2n : ∀ ev ∈ ev2, mutAddrContent ev = none := by
      intro ev hev
      rw [hev2] at hev
      revert hev
      cases lookupEp s.epStateMap ep with
      | none =>
        intro hev
        exact absurd hev (by simp)
      | some _ =>
        intro hev
        have hx : ev = Ev.notify NotifyKind.onRestart ep := by simpa using hev
        rw [hx]
        rfl
    set r3 := if (!isDeadState ((lookupEp s1.epStateMap ep).getD eps)) = true
      then markAlive e s1 ep else markDead e s1 ep with hr3
    have hr3n : ∀ ev ∈ r3.2, mutAddrContent ev = none := by
      rw [hr3]
      split
      · exact markAlive_no_mut e s1 ep hb1
      · exact markDead_no_mut e s1 ep
    set ev4 := (if (lookupEp r3.1.epStateMap ep).isSome = true
      then [Ev.notify NotifyKind.onJoin ep] else ([] : List Ev)) with hev4
    have hev4n : ∀ ev ∈ ev4, mutAddrContent ev = none := by
      intro ev hev
      rw [hev4] at hev
      split at hev
      · have : ev = Ev.notify NotifyKind.onJoin ep := by simpa using hev
        rw [this]
        rfl
      · exact absurd hev (by simp)
    set r5 := if doGetGossipStatus ((lookupEp r3.1.epStateMap ep).bind
        (fun st => st.getApp AppState.STATUS)) = SHUTDOWN
      then markAsShutdownFuel 3 e r3.1 ep else (r3.1, ([] : List Ev)) with hr5
    have hr5c : fanoutCovered mutAddrContent r5.2 = true := by
      rw [hr5]
      split
      · exact (cmsFuel_covered 3 e r3.1 ep).2
      · rfl
    show fanoutCovered mutAddrContent
      ([Ev.mutateState ep, Ev.fanout ep] ++ ev2 ++ r3.2 ++ ev4 ++ r5.2) = true
    have hrest : fanoutCovered mutAddrContent (((ev2 ++ r3.2) ++ ev4) ++ r5.2) = true := by
      refine fanoutCovered_append mutAddrContent _ _ ?_ hr5c
      refine fanoutCovered_append mutAddrContent _ _ ?_
        (fanoutCovered_of_no_mut mutAddrContent _ hev4n)
      exact fanoutCovered_append mutAddrContent _ _
        (fanoutCovered_of_no_mut mutAddrContent _ hev2n)
        (fanoutCovered_of_no_mut mutAddrContent _ hr3n)
    exact fanoutCovered_mut_fanout ep (((ev2 ++ r3.2) ++ ev4) ++ r5.2) hrest

theorem doApply_covered (e : Env) (s : GState) (node : Addr) (rs : EndpointState)
    (hb : (lookupEp s.epStateMap e.broadcast).isSome = true) :
    fanoutCovered mutAddrContent (doApplyStateLocally e s node rs true).2 = true := by
  cases hl : lookupEp s.epStateMap node with
  | none =>
    simp only [doApplyStateLocally, hl, eq_self_iff_true, if_true]
    exact handleMajor_covered e s node rs hb
  | some localState =>
    by_cases hcor : e.genNow + MAX_GENERATION_DIFFERENCE < rs.hb.generation
    · simp only [doApplyStateLocally, hl, if_pos hcor]
      rfl
    · by_cases hmaj : localState.hb.generation < rs.hb.generation
      · simp only [doApplyStateLocally, hl, if_neg hcor, if_pos hmaj,
          eq_self_iff_true, if_true]
        exact handleMajor_covered e s node rs hb
      · by_cases heq : rs.hb.generation = localState.hb.generation
        · simp only [doApplyStateLocally, hl, if_neg hcor, if_neg hmaj, if_pos heq,
            eq_self_iff_true, if_true]
          set r1 := if maxEndpointStateVersion localState < maxEndpointStateVersion rs
            then applyNewStates e s node rs else (s, ([] : List Ev)) with hr1
          have h1c : fanoutCovered mutAddrContent r1.2 = true := by
            rw [hr1]
            split
            · exact applyNewStates_covered e s node rs
            · rfl
          have h1f : frameTo node s r1.1 := by
            rw [hr1]
            split
            · exact applyNewStates_frameTo e s node rs
            · exact frameTo_refl node s
          have hb1 : (lookupEp r1.1.epStateMap e.broadcast).isSome = true := h1f.2.1 _ hb
          by_cases hma : (!((lookupEp r1.1.epStateMap node).getD localState).alive
              && !isDeadState ((lookupEp r1.1.epStateMap node).getD localState)) = true
          · rw [if_pos hma]
            exact fanoutCovered_append mutAddrContent _ _ h1c
              (fanoutCovered_of_no_mut mutAddrContent _ (markAlive_no_mut e r1.1 node hb1))
          · rw [if_neg hma]
            exact h1c
        · simp only [doApplyStateLocally, hl, if_neg hcor, if_neg hmaj, if_neg heq]
          rfl

theorem applyStateLocally_covered_go (e : Env) (incoming : EpMap) :
    ∀ (order : List Addr) (acc : GState × List Ev),
      fanoutCovered mutAddrContent acc.2 = true →
      (lookupEp acc.1.epStateMap e.broadcast).isSome = true →
      fanoutCovered mutAddrContent ((order.foldl
        (fun (acc : GState × List Ev) ep =>
          if ep == e.broadcast && !e.shadow then acc
          else if (assocLookup acc.1.justRemovedEndpoints ep).isSome then acc
          else
            let r := doApplyStateLocally e acc.1 ep
              ((lookupEp incoming ep).getD (freshEndpointState ⟨0, 0⟩)) true
            (r.1, acc.2 ++ r.2)) acc)).2 = true
  | [], acc, hc, _ => hc
  | ep :: rest, acc, hc, hb => by
    rw [List.foldl_cons]
    by_cases hself : (ep == e.broadcast && !e.shadow) = true
    · rw [if_pos hself]
      exact applyStateLocally_covered_go e incoming rest acc hc hb
    · rw [if_neg hself]
      by_cases hquar : (assocLookup acc.1.justRemovedEndpoints ep).isSome = true
      · rw [if_pos hquar]
        exact applyStateLocally_covered_go e incoming rest acc hc hb
      · rw [if_neg hquar]
        refine applyStateLocally_covered_go e incoming rest _ ?_ ?_
        · exact fanoutCovered_append mutAddrContent _ _ hc
            (doApply_covered e acc.1 ep
              ((lookupEp incoming ep).getD (freshEndpointState ⟨0, 0⟩)) hb)
        · exact (doApply_frameTo e acc.1 ep
            ((lookupEp incoming ep).getD (freshEndpointState ⟨0, 0⟩)) hb).2.1 _ hb

theorem addLocalFold_evs (e : Env) :
    ∀ (states : List (AppState × VersionedValue)) (acc : GState × List Ev),
      (∀ ev ∈ acc.2, ev = Ev.mutateState e.broadcast) →
      ∀ ev ∈ (states.foldl
        (fun (acc : GState × List Ev) kv =>
          let newVer := acc.1.versionGen + 1
          let value := { kv.2 with version := newVer }
          let m1 := assocModify acc.1.epStateMap e.broadcast (fun les => les.addApp kv.1 value)
          ({ acc.1 with epStateMap := m1, versionGen := newVer },
           acc.2 ++ [Ev.mutateState e.broadcast])) acc).2,
        ev = Ev.mutateState e.broadcast
  | [], acc, h => h
  | kv :: rest, acc, h => by
    rw [List.foldl_cons]
    refine addLocalFold_evs e rest _ ?_
    intro ev hev
    rcases List.mem_append.mp hev with hl | hr
    · exact h ev hl
    · simpa using hr

theorem addLocalEv3_mem (e : Env) :
    ∀ (states : List (AppState × VersionedValue)) (acc : List Ev) (x : Ev),
      x ∈ acc →
      x ∈ states.foldl (fun (acc : List Ev) _ =>
        acc ++ [Ev.fanout e.broadcast, Ev.notify NotifyKind.onChange e.broadcast]) acc
  | [], _, _, h => h
  | kv :: rest, acc, x, h => by
    rw [List.foldl_cons]
    exact addLocalEv3_mem e rest _ x (List.mem_append_left _ h)

theorem addLocalEv3_no_mut (e : Env) :
    ∀ (states : List (AppState × VersionedValue)) (acc : List Ev),
      (∀ ev ∈ acc, mutAddrContent ev = none) →
      ∀ ev ∈ states.foldl (fun (acc : List Ev) _ =>
        acc ++ [Ev.fanout e.broadcast, Ev.notify NotifyKind.onChange e.broadcast]) acc,
        mutAddrContent ev = none
  | [], _, h => h
  | kv :: rest, acc, h => by
    rw [List.foldl_cons]
    refine addLocalEv3_no_mut e rest _ ?_
    intro ev hev
    rcases List.mem_append.mp hev with hl | hr
    · exact h ev hl
    · rcases List.mem_cons.mp hr with rfl | hr'
      · rfl
      · have hx : ev = Ev.notify NotifyKind.onChange e.broadcast := by simpa using hr'
        rw [hx]
        rfl

theorem addLocalApplicationState_covered (e : Env) (s : GState)
    (states : List (AppState × VersionedValue)) :
    fanoutCovered mutAddrContent (addLocalApplicationState e s states).2 = true := by
  rw [addLocalApplicationState]
  by_cases hempty : states.isEmpty = true
  · rw [if_pos hempty]
    rfl
  · rw [if_neg hempty]
    cases hl : lookupEp s.epStateMap e.broadcast with
    | none => rfl
    | some st =>
      simp only []
      cases hstates : states with
      | nil => exact absurd (hstates ▸ rfl) hempty
      | cons kv rest =>
        refine fanoutCovered_of_muts_before mutAddrContent e.broadcast
          ((kv :: rest).map (fun _ => Ev.notify NotifyKind.beforeChange e.broadcast) ++
            ((kv :: rest).foldl
              (fun (acc : GState × List Ev) kv =>
                let newVer := acc.1.versionGen + 1
                let value := { kv.2 with version := newVer }
                let m1 := assocModify acc.1.epStateMap e.broadcast
                  (fun les => les.addApp kv.1 value)
                ({ acc.1 with epStateMap := m1, versionGen := newVer },
                 acc.2 ++ [Ev.mutateState e.broadcast])) (s, [])).2)
          ((kv :: rest).foldl (fun (acc : List Ev) _ =>
            acc ++ [Ev.fanout e.broadcast, Ev.notify NotifyKind.onChange e.broadcast]) [])
          ?_ ?_ ?_
        · intro ev hev
          rcases List.mem_append.mp hev with hlft | hrgt
          · rcases List.mem_map.mp hlft with ⟨x, _, rfl⟩
            exact Or.inl rfl
          · have hx := addLocalFold_evs e (kv :: rest) (s, []) (by simp) ev hrgt
            rw [hx]
            exact Or.inr rfl
        · refine addLocalEv3_mem e rest [Ev.fanout e.broadcast,
            Ev.notify NotifyKind.onChange e.broadcast] _ ?_
          simp
        · exact fanoutCovered_of_no_mut mutAddrContent _
            (addLocalEv3_no_mut e (kv :: rest) [] (by simp))

theorem advertiseRemoving_covered (e : Env) (s : GState) (endpoint : Addr)
    (removingVal coordVal : VersionedValue) :
    fanoutCovered mutAddrContent
      (advertiseRemoving e s endpoint removingVal coordVal).2 = true := by
  rw [advertiseRemoving]
  cases hl : lookupEp s.epStateMap endpoint with
  | none => rfl
  | some st =>
    simp only []
    refine fanoutCovered_of_muts_before mutAddrContent endpoint
      [Ev.touch endpoint, Ev.mutateState endpoint, Ev.mutateState endpoint,
        Ev.mutateState endpoint, Ev.mutateState endpoint]
      [Ev.fanout endpoint] ?_ (by simp) rfl
    intro ev hev
    rcases List.mem_cons.mp hev with rfl | h1
    · exact Or.inl rfl
    · rcases List.mem_cons.mp h1 with rfl | h2
      · exact Or.inr rfl
      · rcases List.mem_cons.mp h2 with rfl | h3
        · exact Or.inr rfl
        · rcases List.mem_cons.mp h3 with rfl | h4
          · exact Or.inr rfl
          · rcases List.mem_cons.mp h4 with rfl | h5
            · exact Or.inr rfl
            · exact absurd h5 (by simp)

theorem addSavedEndpoint_covered (e : Env) (s : GState) (ep : Addr)
    (tokensVal hostIdVal : Option VersionedValue) :
    fanoutCovered mutAddrContent
      (addSavedEndpoint e s ep tokensVal hostIdVal).2 = true := by
  rw [addSavedEndpoint]
  by_cases hself : (ep == e.broadcast) = true
  · rw [if_pos hself]
    rfl
  · rw [if_neg hself]
    exact fanoutCovered_mut_fanout ep [] rfl

/-- C1 counterexample.  As stated — over every write to `endpoint_state_map`,
the alive bit included — the claim fails on two of its own paths: the
no-listener apply path (shadow round) writes a new entry for peer 5 and
completes without any fan-out, and `mark_as_shutdown` clears peer 7's alive
bit (through `mark_dead`) after its only replication, completing without
fanning the alive-bit write out. -/
theorem replication_before_completion_cex :
    fanoutCovered mutAddrAll
        (applyStateLocallyWithoutListener envA gs0 [(5, esNormal)]).2 = false ∧
      fanoutCovered mutAddrAll (markAsShutdown envA gsShut 7).2 = false := by
  constructor
  · decide
  · decide

/-- C1 (amended).  For the listener-notification apply path,
`add_local_application_state`, `handle_major_state_change`,
`mark_as_shutdown`, `advertise_removing` and `add_saved_endpoint` — given
that the own entry is present in the map — every write that changes the
generation/heartbeat/application content of `endpoint_state_map` is followed,
before the operation completes, by a replication fan-out for the same
endpoint.  Writes of only the alive bit or the update timestamp, and the
writes of the no-listener (shadow-round) apply path, are not fanned out. -/
theorem ops_replicate_before_completion (e : Env) (s : GState)
    (node ep addr : Addr) (eps : EndpointState) (order : List Addr)
    (incoming : EpMap) (states : List (AppState × VersionedValue))
    (tokensVal hostIdVal : Option VersionedValue)
    (removingVal coordVal : VersionedValue)
    (hb : (lookupEp s.epStateMap e.broadcast).isSome = true) :
    fanoutCovered mutAddrContent (applyStateLocally e s order incoming).2 = true ∧
    fanoutCovered mutAddrContent (addLocalApplicationState e s states).2 = true ∧
    fanoutCovered mutAddrContent (handleMajorStateChange e s ep eps).2 = true ∧
    fanoutCovered mutAddrContent (markAsShutdown e s addr).2 = true ∧
    fanoutCovered mutAddrContent
      (advertiseRemoving e s addr removingVal coordVal).2 = true ∧
    fanoutCovered mutAddrContent
      (addSavedEndpoint e s node tokensVal hostIdVal).2 = true :=
  ⟨applyStateLocally_covered_go e incoming order (s, []) rfl hb,
   addLocalApplicationState_covered e s states,
   handleMajor_covered e s ep eps hb,
   (cmsFuel_covered 3 e s addr).2,
   advertiseRemoving_covered e s addr removingVal coordVal,
   addSavedEndpoint_covered e s node tokensVal hostIdVal⟩

/-- C1 witness: the amended replication-ordering property at concrete inputs
(`envA`, the SHUTDOWN-peer state, peer 5's incoming NORMAL delta, one local
LOAD value, and concrete removal values). -/
theorem ops_replicate_before_completion_witness :
    fanoutCovered mutAddrContent
        (applyStateLocally envA gsShut [5] [(5, esNormal)]).2 = true ∧
      fanoutCovered mutAddrContent
        (addLocalApplicationState envA gsShut
          [(AppState.LOAD, VersionedValue.mk "1.0" 3)]).2 = true ∧
      fanoutCovered mutAddrContent
        (handleMajorStateChange envA gsShut 9 esNormal).2 = true ∧
      fanoutCovered mutAddrContent (markAsShutdown envA gsShut 7).2 = true ∧
      fanoutCovered mutAddrContent
        (advertiseRemoving envA gsShut 7
          (VersionedValue.mk "REMOVING_TOKEN,hostid" 9)
          (VersionedValue.mk "coord" 10)).2 = true ∧
      fanoutCovered mutAddrContent
        (addSavedEndpoint envA gsShut 5
          (some (VersionedValue.mk "tokens" 1)) none).2 = true :=
  ops_replicate_before_completion envA gsShut 5 9 7 esNormal [5] [(5, esNormal)]
    [(AppState.LOAD, VersionedValue.mk "1.0" 3)]
    (some (VersionedValue.mk "tokens" 1)) none
    (VersionedValue.mk "REMOVING_TOKEN,hostid" 9) (VersionedValue.mk "coord" 10)
    (by decide)

theorem coalInv_reachable : ∀ (s : CoalState), CoalReachable s → coalInv s := by
  intro s h
  induction h with
  | init => rfl
  | step l t t' hr hstep ih =>
    cases hstep with
    | arriveNew m f c =>
      simp [coalInv] at ih ⊢
      omega
    | arriveBusy m st f c =>
      simp [coalInv] at ih ⊢
      omega
    | arriveIdle m st f c =>
      simp [coalInv] at ih ⊢
      omega
    | finishGone f c =>
      simp only [coalInv] at ih
      omega
    | finishQueued p m f c =>
      cases p with
      | true =>
        simp [coalInv] at ih ⊢
        omega
      | false =>
        simp [coalInv] at ih ⊢
    | finishEmpty p f c =>
      cases p with
      | true =>
        simp [coalInv] at ih ⊢
        omega
      | false =>
        simp [coalInv] at ih ⊢
    | failGone f c =>
      simp only [coalInv] at ih
      omega
    | failSlot p st f c =>
      cases p with
      | true =>
        simp [coalInv] at ih ⊢
        omega
      | false =>
        simp [coalInv] at ih ⊢

/-- C5.  In every reachable state of one source's SYN/ACK handler machinery:
at most one handler fiber is in flight (the stash being a single `Option`
slot, at most one deferred message exists by construction); a message
arriving while a handler is in flight only overwrites the stash — the slot
stays pending with the new message stashed and no new fiber starts; and a
fiber finishing while a message is stashed continues by processing exactly
that most recently stashed message. -/
theorem syn_ack_serialized_and_coalesced (s : CoalState) (h : CoalReachable s) :
    s.inFlight ≤ 1 ∧
    (∀ (m : Nat) (s' : CoalState), CoalStep (CoalLabel.arrive m) s s' →
      s.inFlight = 1 →
      s'.slot = some ⟨true, some m⟩ ∧ s'.inFlight = s.inFlight) ∧
    (∀ (p : Bool) (m : Nat) (s' : CoalState),
      s.slot = some ⟨p, some m⟩ → CoalStep CoalLabel.finish s s' →
      s'.current = some m) := by
  have hin := coalInv_reachable s h
  refine ⟨?_, ?_, ?_⟩
  · rcases s with ⟨slot, f, c⟩
    cases slot with
    | none =>
      simp only [coalInv] at hin
      show f ≤ 1
      omega
    | some ps =>
      rcases ps with ⟨p, st⟩
      cases p with
      | true =>
        simp [coalInv] at hin
        show f ≤ 1
        omega
      | false =>
        simp [coalInv] at hin
        show f ≤ 1
        omega
  · intro m s' hstep hf1
    cases hstep with
    | arriveNew m' f c =>
      simp [coalInv] at hin
      have hf : f = 1 := hf1
      omega
    | arriveBusy m' st f c => exact ⟨rfl, rfl⟩
    | arriveIdle m' st f c =>
      simp [coalInv] at hin
      have hf : f = 1 := hf1
      omega
  · intro p m s' hslot hstep
    cases hstep with
    | finishGone f c => exact absurd hslot (by simp)
    | finishQueued q m' f c =>
      have hslot' : (some (PendingSlot.mk q (some m')) : Option PendingSlot) =
          some (PendingSlot.mk p (some m)) := hslot
      have hm : m' = m := by
        injection hslot' with hps
        injection hps with hpq hst
        injection hst
      show (some m' : Option Nat) = some m
      rw [hm]
    | finishEmpty q f c =>
      have hslot' : (some (PendingSlot.mk q none) : Option PendingSlot) =
          some (PendingSlot.mk p (some m)) := hslot
      injection hslot' with hps
      injection hps with hpq hst

/-- C5 witness: the serialization/coalescing property at the concrete state
reached by one arrival from the initial state (slot pending with no stash,
one fiber in flight, processing message 5). -/
theorem syn_ack_serialized_and_coalesced_witness :
    (CoalState.mk (some ⟨true, none⟩) 1 (some 5)).inFlight ≤ 1 ∧
    (∀ (m : Nat) (s' : CoalState),
      CoalStep (CoalLabel.arrive m) (CoalState.mk (some ⟨true, none⟩) 1 (some 5)) s' →
      (CoalState.mk (some ⟨true, none⟩) 1 (some 5)).inFlight = 1 →
      s'.slot = some ⟨true, some m⟩ ∧
        s'.inFlight = (CoalState.mk (some ⟨true, none⟩) 1 (some 5)).inFlight) ∧
    (∀ (p : Bool) (m : Nat) (s' : CoalState),
      (CoalState.mk (some ⟨true, none⟩) 1 (some 5)).slot = some ⟨p, some m⟩ →
      CoalStep CoalLabel.finish (CoalState.mk (some ⟨true, none⟩) 1 (some 5)) s' →
      s'.current = some m) :=
  syn_ack_serialized_and_coalesced (CoalState.mk (some ⟨true, none⟩) 1 (some 5))
    (CoalReachable.step (CoalLabel.arrive 5) coalInit _ CoalReachable.init
      (CoalStep.arriveNew 5 0 none))

end Gossip
